import Mathlib

/-!
Verification development for the SATB bass-line harmonizer backend
(src/backend/app.py).  The Python source is shallowly embedded: pure
functions become Lean functions, machine integers are Int/Nat, the
external music library (pitch parsing, key objects, Roman-numeral
expansion, chord-root analysis) is represented by the exact interface the
core reads from it, passed in as structured values or oracle functions.
-/

/-! ## Pitch and interval primitives (interface of the external pitch library) -/

/-- Diatonic letter steps C..B as used by the external pitch library. -/
inductive Step
  | C | D | E | F | G | A | B
deriving DecidableEq, Repr

/-- Semitone offset of each natural step above C. -/
def Step.semis : Step → Int
  | .C => 0 | .D => 2 | .E => 4 | .F => 5 | .G => 7 | .A => 9 | .B => 11

/-- Staff index of each step (C = 0 .. B = 6), for generic interval sizes. -/
def Step.idx : Step → Int
  | .C => 0 | .D => 1 | .E => 2 | .F => 3 | .G => 4 | .A => 5 | .B => 6

/-- Spelled pitch-class name: a letter step plus an accidental alteration
(models music21 pitch names such as F sharp = (F, 1), B flat = (B, -1)). -/
structure NoteName where
  step : Step
  alter : Int
deriving DecidableEq, Repr

/-- A pitch: spelled name plus octave.  Models a music21 Pitch object:
equality is by spelling plus octave, ordering compares the pitch-space
(midi) number. -/
structure Pitch where
  name : NoteName
  octave : Int
deriving DecidableEq, Repr

/-- Midi (pitch-space) number of a pitch; C4 = 60. -/
def Pitch.midi (p : Pitch) : Int :=
  12 * (p.octave + 1) + p.name.step.semis + p.name.alter

/-- Pitch class 0..11 of a pitch  (music21 pitchClass). -/
def Pitch.pitchClass (p : Pitch) : Int := p.midi % 12

/-- Pitch class 0..11 of a bare note name. -/
def NoteName.pc (n : NoteName) : Int := (n.step.semis + n.alter) % 12

/-- Diatonic staff position of a pitch (7 per octave), used for generic
interval sizes. -/
def Pitch.diatonicPos (p : Pitch) : Int := 7 * p.octave + p.name.step.idx

/-- Semitone size of the simple generic interval with staff distance 0..6
(unison, second, ..., seventh): the perfect/major sizes. -/
def genericBaseSemis : Nat → Int
  | 0 => 0 | 1 => 2 | 2 => 4 | 3 => 5 | 4 => 7 | 5 => 9 | _ => 11

/-- Simple interval name of the undirected interval between two pitches,
modelling the simpleName attribute of the external interval library:
quality letter (P/M/m/A/d) followed by the simple generic number, where
octave multiples reduce to 1.  Only the values compared against by the
source (P1, P5, P8) matter to the embedded code; qualities beyond doubly
augmented/diminished collapse to a placeholder. -/
def intervalSimpleName (p q : Pitch) : String :=
  let staff : Nat := (q.diatonicPos - p.diatonicPos).natAbs
  let chroma : Int := ((q.midi - p.midi).natAbs : Int)
  let simpleStaff := staff % 7
  let octaves : Int := (staff / 7 : Nat)
  let normal : Int := genericBaseSemis simpleStaff + 12 * octaves
  let diff : Int := chroma - normal
  let perfectType := simpleStaff = 0 ∨ simpleStaff = 3 ∨ simpleStaff = 4
  let quality :=
    if perfectType then
      if diff = 0 then "P" else if diff = 1 then "A" else if diff = -1 then "d"
      else if diff = 2 then "AA" else if diff = -2 then "dd" else "Q"
    else
      if diff = 0 then "M" else if diff = -1 then "m" else if diff = 1 then "A"
      else if diff = -2 then "d" else if diff = 2 then "AA" else "Q"
  quality ++ toString (simpleStaff + 1)

/-! ## Interfaces of the external key / Roman-numeral / chord-analysis libraries -/

/-- Interface of the external key object as consumed by the core: tonic,
mode string, the seven scale pitches in degree order, and the leading
tone. -/
structure KeyObj where
  tonic : NoteName
  mode : String
  scalePitches : List NoteName
  leadingTone : NoteName
deriving DecidableEq, Repr

/-- Interface of the external Roman-numeral expander: the chord tones the
core reads off a parsed numeral (root, third, fifth, optional seventh). -/
structure RomanChord where
  root : NoteName
  third : NoteName
  fifth : NoteName
  seventh : Option NoteName
deriving DecidableEq, Repr

/-- Four-voice chord as built by the fixed-bass generator: pitches kept in
the construction order bass, tenor, alto, soprano (the order a music21
Chord preserves from its input list). -/
structure Voicing where
  bass : Pitch
  tenor : Pitch
  alto : Pitch
  soprano : Pitch
deriving DecidableEq, Repr

/-- The pitches of a voicing in index order 0 = bass .. 3 = soprano,
matching chord.pitches in the source. -/
def Voicing.pitches (v : Voicing) : List Pitch := [v.bass, v.tenor, v.alto, v.soprano]

/-- Index access chord.pitches i used throughout the source; indices are
always 0..3 there, the default is never reached. -/
def Voicing.p (v : Voicing) (i : Nat) : Pitch := v.pitches.getD i v.bass

/-- Interface of the external chord-analysis routine applied to a built
four-note chord, as read by chordCost and progressionCost: root name,
third / fifth pitch classes (None when the analysis finds none), the
chordal-seventh pitch if any, and the inversion. -/
structure ChordFacts where
  root : NoteName
  third : Option Int
  fifth : Option Int
  seventh : Option Pitch
  inversion : Int
deriving DecidableEq, Repr

/-! ## Voice ranges (source lines 350-353) -/

def SOPRANO_RANGE : Pitch × Pitch := (⟨⟨.C, 0⟩, 4⟩, ⟨⟨.G, 0⟩, 5⟩)
def ALTO_RANGE : Pitch × Pitch := (⟨⟨.G, 0⟩, 3⟩, ⟨⟨.C, 0⟩, 5⟩)
def TENOR_RANGE : Pitch × Pitch := (⟨⟨.C, 0⟩, 3⟩, ⟨⟨.G, 0⟩, 4⟩)
def BASS_RANGE : Pitch × Pitch := (⟨⟨.E, 0⟩, 2⟩, ⟨⟨.C, 0⟩, 4⟩)

/-- Range membership by pitch-space comparison, the ordering music21
Pitch comparison operators use. -/
def inRange (r : Pitch × Pitch) (p : Pitch) : Bool :=
  r.1.midi ≤ p.midi && p.midi ≤ r.2.midi

/-! ## voiceChordWithFixedBass (source lines 676-777) -/

/-- The six permutations of a three-element list in itertools.permutations
order; the source only permutes the three-element slice triad_notes[1:]. -/
def perms3 {α : Type} : List α → List (α × α × α)
  | [a, b, c] => [(a, b, c), (a, c, b), (b, a, c), (b, c, a), (c, a, b), (c, b, a)]
  | _ => []

/-- One doubling choice of voiceChordWithFixedBass: enumerate the six
permutations of (third, fifth, doubled tone) over the octave grids
soprano 4..5, alto 3..4, tenor 3..4, keeping a candidate when it passes
the range, strict-ordering and spacing checks of the source (lines
719-749). -/
def fixedBassCandidates (fixed_bass : Pitch) (triadTail : List NoteName) : List Voicing :=
  (perms3 triadTail).flatMap (fun (sopN, altoN, tenN) =>
    ([4, 5] : List Int).flatMap (fun so =>
      ([3, 4] : List Int).flatMap (fun ao =>
        ([3, 4] : List Int).filterMap (fun teno =>
          let soprano : Pitch := ⟨sopN, so⟩
          let alto : Pitch := ⟨altoN, ao⟩
          let tenor : Pitch := ⟨tenN, teno⟩
          if inRange SOPRANO_RANGE soprano && inRange ALTO_RANGE alto
              && inRange TENOR_RANGE tenor
              && (fixed_bass.midi < tenor.midi && tenor.midi < alto.midi
                  && alto.midi < soprano.midi)
              && soprano.midi - alto.midi ≤ 12
              && alto.midi - tenor.midi ≤ 12 then
            some ⟨fixed_bass, tenor, alto, soprano⟩
          else none))))

/-- Doubling priority of voiceChordWithFixedBass (lines 705-711): root,
then fifth, then third, skipping the key's leading tone. -/
def doublingPriority (leading_tone : NoteName) (c : RomanChord) : List NoteName :=
  (if c.root ≠ leading_tone then [c.root] else [])
    ++ (if c.fifth ≠ leading_tone then [c.fifth] else [])
    ++ (if c.third ≠ leading_tone then [c.third] else [])

/-- The doubling loop of voiceChordWithFixedBass (lines 713-756): for each
doubling choice append its candidates, stopping early once more than 20
voicings have accumulated. -/
def fixedBassLoop (fixed_bass : Pitch) (c : RomanChord) :
    List NoteName → List Voicing → List Voicing
  | [], acc => acc
  | d :: rest, acc =>
    let acc := acc ++ fixedBassCandidates fixed_bass [c.third, c.fifth, d]
    if 20 < acc.length then acc else fixedBassLoop fixed_bass c rest acc

/-- voiceChordWithFixedBass (lines 676-777): generate voicings above a
fixed bass pitch from complete triads with one doubled tone, falling back
to a single constructed voicing when the search yields nothing, and
return the first 10.  Note the enumeration draws the upper voices only
from root/third/fifth plus a doubling; the chordal seventh of chord_symbol
is never placed in an upper voice. -/
def voiceChordWithFixedBass (key_obj : KeyObj) (chord_symbol : RomanChord)
    (fixed_bass : Pitch) : List Voicing :=
  let voicings := fixedBassLoop fixed_bass chord_symbol
    (doublingPriority key_obj.leadingTone chord_symbol) []
  let voicings :=
    if voicings = [] then
      let soprano : Pitch := ⟨chord_symbol.root, 5⟩
      let alto : Pitch := ⟨chord_symbol.third, 4⟩
      let tenor : Pitch := ⟨chord_symbol.fifth, 4⟩
      let pair := if alto.midi < tenor.midi then (tenor, alto) else (alto, tenor)
      [⟨fixed_bass, pair.2, pair.1, soprano⟩]
    else voicings
  voicings.take 10

/-! ## DP costs (source lines 407-515) -/

/-- DP cost value: an integer, or the float infinity used to initialise
the running best in the dynamic programs. -/
inductive Cost
  | inf
  | fin (val : Int)
deriving DecidableEq, Repr

/-- Addition of an integer onto a cost, as in pcost + progressionCost. -/
def Cost.add : Cost → Int → Cost
  | .inf, _ => .inf
  | .fin a, b => .fin (a + b)

/-- Strict comparison of costs, as in ccost < best[0] with best possibly
the float infinity. -/
def Cost.lt : Cost → Cost → Bool
  | .inf, _ => false
  | .fin _, .inf => true
  | .fin a, .fin b => a < b

/-- Subtraction of costs as used for the per-chord marginal costs; both
arguments are finite whenever the source reaches this computation. -/
def Cost.sub : Cost → Cost → Cost
  | .inf, _ => .inf
  | .fin a, .fin b => .fin (a - b)
  | .fin _, .inf => .inf

/-- Printed form of a cost, standing in for Python float formatting in
compromise descriptions. -/
def Cost.str : Cost → String
  | .inf => "inf"
  | .fin a => toString a

/-- The parallel-motion block of progressionCost for one voice pair
i < j (source lines 430-457): skip when both voices are stationary,
otherwise add 200 for parallel fifths, 300 for intervals that are 0
mod 12 in both chords, 250 for true unisons in both chords, and the
outer-voice similar-motion penalty for the bass/soprano pair. -/
def pairPenalty (chord1 chord2 : Voicing) (i j : Nat) : Int :=
  let t1 := chord1.p j
  let t2 := chord2.p j
  let b1 := chord1.p i
  let b2 := chord2.p i
  if t1 = t2 ∧ b1 = b2 then 0
  else
    let i1 := t1.midi - b1.midi
    let i2 := t2.midi - b2.midi
    let c : Int := 0
    let c := c + (if i1 % 12 = i2 % 12 ∧ i2 % 12 = 7 then 200 else 0)
    let c := c + (if i1 % 12 = i2 % 12 ∧ i2 % 12 = 0 then 300 else 0)
    let c := c + (if i1.natAbs = i2.natAbs ∧ i2.natAbs = 0 then 250 else 0)
    let c := c +
      (if i = 0 ∧ j = 3 then
        if (t1.midi < t2.midi ∧ b1.midi < b2.midi)
            ∨ (t2.midi < t1.midi ∧ b2.midi < b1.midi) then
          if i2.natAbs % 12 = 7 ∨ i2.natAbs % 12 = 0 then 50 else 2
        else 0
      else 0)
    c

/-- Voice pairs (i, j) with i < j in the iteration order of the source's
nested loops. -/
def voicePairs : List (Nat × Nat) := [(0,1), (0,2), (0,3), (1,2), (1,3), (2,3)]

/-- progressionCost (source lines 407-483): transition cost between two
voiced chords, given the chord-analysis oracle providing each chord's
root and chordal seventh.  Comprises the overlap penalty, the leap costs,
the parallel-motion penalties, the seventh-resolution rule and the
leading-tone-resolution rule. -/
def progressionCost (key_obj : KeyObj) (facts : Voicing → ChordFacts)
    (chord1 chord2 : Voicing) : Int :=
  let f1 := facts chord1
  let f2 := facts chord2
  -- Overlapping voices
  let cost : Int :=
    if (chord2.p 0).midi > (chord1.p 1).midi
        ∨ (chord2.p 1).midi < (chord1.p 0).midi
        ∨ (chord2.p 1).midi > (chord1.p 2).midi
        ∨ (chord2.p 2).midi < (chord1.p 1).midi
        ∨ (chord2.p 2).midi > (chord1.p 3).midi
        ∨ (chord2.p 3).midi < (chord1.p 2).midi
    then 40 else 0
  -- Avoid big jumps
  let diff : Nat → Nat := fun k => ((chord1.p k).midi - (chord2.p k).midi).natAbs
  let cost := cost + (if diff 3 ≠ 0 then ((diff 3 / 3) ^ 2 : Nat) else 1)
  let cost := cost + ((diff 2 ^ 2 / 3 : Nat) : Int)
  let cost := cost + ((diff 1 ^ 2 / 3 : Nat) : Int)
  let cost := cost + (if diff 0 ≠ 12 then ((diff 0 ^ 2 / 50 : Nat) : Int) else 0)
  -- Contrary motion is good, parallel fifths and octaves are bad
  let cost := cost + (voicePairs.map (fun ij => pairPenalty chord1 chord2 ij.1 ij.2)).sum
  -- Chordal 7th should resolve downward or stay
  let cost := cost +
    (match f1.seventh with
     | none => 0
     | some sev =>
        let seventhVoice := chord1.pitches.indexOf sev
        let delta := (chord2.pitches.getD seventhVoice chord2.bass).midi - sev.midi
        if delta < -2 ∨ delta > 0 then 100 else 0)
  -- V -> I means ti -> do or ti -> sol
  let pitches := key_obj.scalePitches.set 6 key_obj.leadingTone
  let deg : Nat → NoteName := fun k => pitches.getD k key_obj.tonic
  let pitchNames1 := chord1.pitches.map Pitch.name
  let cost := cost +
    (if (f1.root = deg 4 ∨ f1.root = deg 6)
        ∧ (f2.root = deg 0 ∨ f2.root = deg 5)
        ∧ deg 6 ∈ pitchNames1 then
      let voice := pitchNames1.indexOf (deg 6)
      let delta := (chord2.pitches.getD voice chord2.bass).midi
        - (chord1.pitches.getD voice chord1.bass).midi
      if ¬(delta = 1 ∨ (delta = -4 ∧ 1 ≤ voice ∧ voice ≤ 2)) then 100 else 0
    else 0)
  cost

/-- chordCost (source lines 485-515): single-chord cost, given the
chord-analysis oracle.  Note the Python truthiness tests on third_pc and
fifth_pc, which skip the missing-tone penalty when the pitch class is 0. -/
def chordCost (key_obj : KeyObj) (facts : Voicing → ChordFacts)
    (chord_obj : Voicing) : Int :=
  let f := facts chord_obj
  let pitch_classes := chord_obj.pitches.map Pitch.pitchClass
  let root_pc := f.root.pc
  let cost : Int := 0
  let cost := cost + (if root_pc ∉ pitch_classes then 500 else 0)
  let cost := cost +
    (match f.third with
     | some t => if t ≠ 0 ∧ t ∉ pitch_classes then 300 else 0
     | none => 0)
  let cost := cost +
    (match f.fifth with
     | some t => if t ≠ 0 ∧ t ∉ pitch_classes then 200 else 0
     | none => 0)
  let cost := cost +
    (if f.inversion = 0 then
      (if pitch_classes.count root_pc ≤ 1 then 10 else 0) else 0)
  let leading_tone_pc := key_obj.leadingTone.pc
  let cost := cost + (if 1 < pitch_classes.count leading_tone_pc then 100 else 0)
  cost

/-! ## Voicing DP with fixed bass (source lines 546-599) -/

/-- One DP table dp[i]: a Python dict keyed by the voicing's pitch tuple,
modelled as an insertion-ordered association list, holding (cost,
predecessor pitch tuple). -/
abbrev Stage : Type := List (Voicing × (Cost × Option Voicing))

/-- Dict update dp[i][key] = value: replace in place when the key exists,
append otherwise. -/
def dictInsert (st : Stage) (k : Voicing) (v : Cost × Option Voicing) : Stage :=
  if st.any (fun e => e.1 = k) then
    st.map (fun e => if e.1 = k then (k, v) else e)
  else st ++ [(k, v)]

/-- Dict lookup dp[i].get(key). -/
def dictGet (st : Stage) (k : Voicing) : Option (Cost × Option Voicing) :=
  (st.find? (fun e => e.1 = k)).map (fun e => e.2)

/-- One non-initial DP stage (source lines 566-573): for every voicing v
of the current chord, take the best predecessor from the previous stage
by pcost + progressionCost, then add chordCost. -/
def dpStep (key_obj : KeyObj) (facts : Voicing → ChordFacts) (prev : Stage)
    (voicings : List Voicing) : Stage :=
  voicings.foldl (fun st v =>
    let best := prev.foldl
      (fun (b : Cost × Option Voicing) e =>
        let ccost := e.2.1.add (progressionCost key_obj facts e.1 v)
        if ccost.lt b.1 then (ccost, some e.1) else b)
      (Cost.inf, none)
    dictInsert st v (best.1.add (chordCost key_obj facts v), best.2)) []

/-- The stage-building loop of voiceProgressionWithFixedBass (lines
551-573), over the numerals paired with their fixed bass notes; the
first stage stores chordCost with no predecessor. -/
def dpStagesAux (key_obj : KeyObj) (facts : Voicing → ChordFacts)
    (expand : String → RomanChord) :
    Option Stage → List (String × Pitch) → List Stage
  | _, [] => []
  | prevOpt, (numeral, fixed_bass) :: rest =>
    let voicings := voiceChordWithFixedBass key_obj (expand numeral) fixed_bass
    let stage : Stage :=
      match prevOpt with
      | none => voicings.foldl
          (fun st v => dictInsert st v (Cost.fin (chordCost key_obj facts v), none)) []
      | some prev => dpStep key_obj facts prev voicings
    stage :: dpStagesAux key_obj facts expand (some stage) rest

/-- All DP stages for a progression with its fixed bass line.  The source
indexes bass_notes[i] inside the loop; the zip models the equal-length
case (a shorter bass list would raise IndexError in Python and surface
through the handler's exception path). -/
def dpStages (key_obj : KeyObj) (facts : Voicing → ChordFacts)
    (expand : String → RomanChord) (chord_progression : List String)
    (bass_notes : List Pitch) : List Stage :=
  dpStagesAux key_obj facts expand none (chord_progression.zip bass_notes)

/-- min(dp[-1].items(), key=cost): first entry of minimal cost in dict
order, none for an empty dict. -/
def argminStage (st : Stage) : Option (Voicing × (Cost × Option Voicing)) :=
  st.foldl
    (fun b e =>
      match b with
      | none => some e
      | some be => if e.2.1.lt be.2.1 then some e else some be)
    none

/-- The backtracking loop of voiceProgressionWithFixedBass (lines
589-594) over the stages in reverse order, collecting each chord with its
marginal cost dp[i][cur][0] - dp[i-1][pred][0].  The lookups cannot miss
for keys produced by the DP; a miss (a Python KeyError) is modelled by a
stationary continuation so that the function stays total. -/
def backtrackAux : List Stage → Voicing → List (Voicing × Cost)
  | [], _ => []
  | stage :: earlier, cur =>
    let entry := dictGet stage cur
    let cost := (entry.map (fun e => e.1)).getD Cost.inf
    let pred := (entry.map (fun e => e.2)).getD none
    let prevStage := earlier.headD ([] : List _)
    let margin :=
      if earlier ≠ [] ∧ pred.isSome then
        cost.sub (((pred.bind (dictGet prevStage)).map (fun e => e.1)).getD Cost.inf)
      else cost.sub (Cost.fin 0)
    (cur, margin) :: backtrackAux earlier (pred.getD cur)

/-- Compromise record (the fields of the dicts built by the source; the
location is empty when the source omits the key). -/
structure Compromise where
  type : String
  severity : String
  location : String
  description : String
  explanation : String
deriving DecidableEq, Repr

/-- generate_simple_fallback_chords (source lines 791-800). -/
def generate_simple_fallback_chords (chord_progression : List String)
    (bass_notes : List Pitch) : List Voicing :=
  let _ := chord_progression
  bass_notes.map (fun b => ⟨b, ⟨b.name, 4⟩, ⟨b.name, 4⟩, ⟨b.name, 5⟩⟩)

/-- analyze_compromises (source lines 601-674): overall-quality notes from
the total cost, per-chord notes from the marginal costs, and forced
parallel fifths/octaves detected from consecutive chords by simple
interval name. -/
def analyze_compromises (chords : List Voicing) (chord_costs : List Cost)
    (total_cost : Cost) : List Compromise :=
  let n : Int := chords.length
  let overall : List Compromise :=
    if (Cost.fin (100 * n)).lt total_cost then
      [{ type := "overall_quality", severity := "high", location := ""
       , description := "High overall cost (" ++ total_cost.str
           ++ ") indicates multiple voice leading compromises were necessary"
       , explanation := "The bass line or chord progression forced the algorithm to violate several SATB rules to complete the harmonization." }]
    else if (Cost.fin (50 * n)).lt total_cost then
      [{ type := "overall_quality", severity := "medium", location := ""
       , description := "Moderate cost (" ++ total_cost.str
           ++ ") indicates some voice leading compromises"
       , explanation := "Some SATB conventions were bent to accommodate the given bass line and chord progression." }]
    else []
  let perChord : List Compromise :=
    ((chords.zip chord_costs).enum.map (fun p =>
      let chord_num := toString (p.1 + 1)
      let cost := p.2.2
      if (Cost.fin 100).lt cost then
        [{ type := "chord_compromise", severity := "high"
         , location := "Chord " ++ chord_num
         , description := "Significant compromises made in chord " ++ chord_num
             ++ " (cost: " ++ cost.str ++ ")"
         , explanation := "This chord likely contains parallel motion, voice crossing, or missing chord tones due to constraints from the fixed bass line." }]
      else if (Cost.fin 50).lt cost then
        [{ type := "chord_compromise", severity := "medium"
         , location := "Chord " ++ chord_num
         , description := "Moderate compromises in chord " ++ chord_num
             ++ " (cost: " ++ cost.str ++ ")"
         , explanation := "This chord may have wide spacing, large leaps, or suboptimal doubling due to bass line constraints." }]
      else [])).flatten
  let voiceNamesCap : List String := ["Bass", "Tenor", "Alto", "Soprano"]
  let forced : List Compromise :=
    ((chords.zip chords.tail).enum.map (fun p =>
      let current_chord := p.2.1
      let next_chord := p.2.2
      let i := p.1
      (voicePairs.map (fun jk =>
        let s1 := intervalSimpleName (current_chord.p jk.1) (current_chord.p jk.2)
        let s2 := intervalSimpleName (next_chord.p jk.1) (next_chord.p jk.2)
        if (s1 = "P5" ∧ s2 = "P5") ∨ (s1 = "P8" ∧ s2 = "P8") then
          [{ type := "forced_parallels", severity := "high"
           , location := "Chords " ++ toString (i + 1) ++ "-" ++ toString (i + 2)
           , description := "Parallel intervals between " ++ voiceNamesCap.getD jk.1 ""
               ++ " and " ++ voiceNamesCap.getD jk.2 "" ++ " were unavoidable"
           , explanation := "The fixed bass line made it impossible to avoid this parallel motion while maintaining proper voice leading elsewhere." }]
        else [])).flatten)).flatten
  overall ++ perChord ++ forced

/-- voiceProgressionWithFixedBass (source lines 546-599): build the DP
stages, and either fall back to generate_simple_fallback_chords when the
final stage is empty, or backtrack from the cheapest final voicing and
analyze compromises.  In Python an empty progression raises IndexError at
dp[-1]; every caller guarantees a non-empty progression. -/
def voiceProgressionWithFixedBass (key_obj : KeyObj)
    (facts : Voicing → ChordFacts) (expand : String → RomanChord)
    (chord_progression : List String) (bass_notes : List Pitch) :
    List Voicing × Cost × List Compromise :=
  let dp := dpStages key_obj facts expand chord_progression bass_notes
  match argminStage (dp.getLastD ([] : List _)) with
  | none =>
    (generate_simple_fallback_chords chord_progression bass_notes, Cost.inf,
      [{ type := "fallback_used", severity := "high", location := ""
       , description := "Unable to generate proper voice leading - using fallback harmonization"
       , explanation := "The bass line and chord progression combination was too constraining for the algorithm to find valid SATB voice leading." }])
  | some cur =>
    let pairs := backtrackAux dp.reverse cur.1
    let ret := (pairs.map (fun e => e.1)).reverse
    let chord_costs := (pairs.map (fun e => e.2)).reverse
    (ret, cur.2.1, analyze_compromises ret chord_costs cur.2.1)

/-! ## generate_satb_harmonization (source lines 802-855) -/

/-- One element of the satb_harmonization response array. -/
structure SATBVoice where
  bass : Pitch
  tenor : Pitch
  alto : Pitch
  soprano : Pitch
  chord : String
deriving DecidableEq, Repr

/-- A bass note as received by the handler after the external note parser:
a spelled name and an octave when one was written. -/
structure BassInput where
  name : NoteName
  octave : Option Int
deriving DecidableEq, Repr

/-- Octave defaulting for bass input (source lines 819-822): a note name
without a digit gets octave 3. -/
def defaultedBass (b : BassInput) : Pitch := ⟨b.name, b.octave.getD 3⟩

/-- Stable insertion into a list ascending by midi, modelling Python's
sorted with a midi key. -/
def insertByMidi (x : Pitch) : List Pitch → List Pitch
  | [] => [x]
  | y :: ys => if x.midi < y.midi then x :: y :: ys else y :: insertByMidi x ys

/-- sorted(chord.pitches, key=midi): stable ascending sort. -/
def sortByMidi (l : List Pitch) : List Pitch := l.foldr insertByMidi []

/-- generate_fallback_satb (source lines 859-870): the constant C-major
harmonization the except branch of generate_satb_harmonization returns,
one identical chord (soprano C5, alto G4, tenor E4, bass C3, numeral I)
per progression step. -/
def generate_fallback_satb (num_chords : Nat) : List SATBVoice :=
  List.replicate num_chords
    { bass := ⟨⟨.C, 0⟩, 3⟩, tenor := ⟨⟨.E, 0⟩, 4⟩, alto := ⟨⟨.G, 0⟩, 4⟩
    , soprano := ⟨⟨.C, 0⟩, 5⟩, chord := "I" }

/-- The conditions under which the try body of generate_satb_harmonization
raises an exception in the source: the Roman-numeral library rejects some
numeral (roman.RomanNumeral, source line 554, reached inside
voiceProgressionWithFixedBass which has no handler of its own), or the
bass line is shorter than the progression so that bass_notes[i] at source
line 555 is out of range.  Failures of the external parsers on inputs
this embedding receives already parsed (note names, the key string) have
no counterpart here. -/
def satbBodyRaises (expand : String → Option RomanChord)
    (chord_progression : List String) (bass_notes : List BassInput) : Bool :=
  chord_progression.any (fun numeral => (expand numeral).isNone)
    || decide (bass_notes.length < chord_progression.length)

/-- generate_satb_harmonization (source lines 802-855): default bass
octaves, run the fixed-bass DP, and read the voices off each chord with
the original bass substituted back in.  The try/except of the source is
modelled by the satbBodyRaises guard: when the body would raise (an
unparseable numeral or a bass line shorter than the progression), the
except branch returns generate_fallback_satb with no compromises — and
the handler still answers 200.  On the non-raising path every numeral
expands (the getD default is unreachable) and the zip agrees with the
indexed accesses bass_note_objects[i] and chord_progression[i] because
the bass line is at least as long as the progression. -/
def generate_satb_harmonization (key_obj : KeyObj)
    (facts : Voicing → ChordFacts) (expand : String → Option RomanChord)
    (chord_progression : List String) (bass_notes : List BassInput) :
    List SATBVoice × List Compromise :=
  if satbBodyRaises expand chord_progression bass_notes then
    (generate_fallback_satb chord_progression.length, [])
  else
    let bass_note_objects := bass_notes.map defaultedBass
    let r := voiceProgressionWithFixedBass key_obj facts
      (fun numeral => (expand numeral).getD ⟨⟨.C, 0⟩, ⟨.E, 0⟩, ⟨.G, 0⟩, none⟩)
      chord_progression bass_note_objects
    let chords := r.1
    let compromises := r.2.2
    let satb_voices :=
      (chords.zip (bass_note_objects.zip chord_progression)).map (fun e =>
        let chord_obj := e.1
        let original_bass := e.2.1
        let numeral := e.2.2
        let sorted_pitches := sortByMidi chord_obj.pitches
        { bass := original_bass
        , tenor := sorted_pitches.getD 1 chord_obj.bass
        , alto := sorted_pitches.getD 2 chord_obj.bass
        , soprano := sorted_pitches.getD 3 chord_obj.bass
        , chord := numeral })
    (satb_voices, compromises)

/-! ## Bass-to-chord map (source lines 139-192) -/

/-- The fixed major-mode table: scale degree to candidate numerals. -/
def chord_options_major (d : Int) : Option (List String) :=
  if d = 1 then some ["I", "vi6"]
  else if d = 2 then some ["ii", "vii°6", "V7"]
  else if d = 3 then some ["I6"]
  else if d = 4 then some ["IV", "ii6", "I6/4"]
  else if d = 5 then some ["V", "V7", "I6/4"]
  else if d = 6 then some ["vi", "IV6"]
  else if d = 7 then some ["vii°", "V7", "V6/5"]
  else none

/-- The fixed minor-mode table: scale degree to candidate numerals. -/
def chord_options_minor (d : Int) : Option (List String) :=
  if d = 1 then some ["i", "VI6"]
  else if d = 2 then some ["ii°", "vii°6", "V7"]
  else if d = 3 then some ["i6"]
  else if d = 4 then some ["iv", "ii°6", "i6/4"]
  else if d = 5 then some ["V", "v"]
  else if d = 6 then some ["VI", "iv6"]
  else if d = 7 then some ["vii°", "V7"]
  else none

/-- get_chords_for_bass_note (source lines 139-192).  The scale-degree
lookup at the top of the function is the external key library (with its
semitone-distance fallback); its outcome is passed in: none models a
pitch the key object cannot place (Python None), and out-of-range degrees
model the fallback arithmetic.  Then: table lookup with tonic fail mode,
first/last-position overrides, and truncation to 3. -/
def get_chords_for_bass_note (key_obj : KeyObj) (scale_degree : Option Int)
    (position : Nat) (total_length : Nat) : List String :=
  let table := if key_obj.mode = "major" then chord_options_major else chord_options_minor
  let tonicOnly := if key_obj.mode = "major" then ["I"] else ["i"]
  let possible_chords :=
    match scale_degree with
    | some d => (table d).getD tonicOnly
    | none => tonicOnly
  let possible_chords :=
    if position = 0 then
      if scale_degree = some 1 then tonicOnly
      else if scale_degree = some 5 then ["V", "V7"]
      else possible_chords
    else if position = total_length - 1 then
      if scale_degree = some 1 then tonicOnly
      else if scale_degree = some 5 then ["V7"]
      else possible_chords
    else possible_chords
  possible_chords.take 3

/-! ## Progression enumerator (source lines 111-137) -/

/-- Cartesian product of a list of lists in itertools.product order: the
first list is most significant, later lists vary faster. -/
def pyProduct {α : Type} : List (List α) → List (List α)
  | [] => [[]]
  | l :: ls => l.flatMap (fun x => (pyProduct ls).map (fun rest => x :: rest))

/-- The budgeted enumeration of generate_bass_specific_progressions
(source lines 121-137): truncate each candidate set to
max(2, 8 / n) entries, and take the first min(100, 4 ^ min(n, 6))
tuples of the Cartesian product. -/
def enumerateProgressions (bass_chord_options : List (List String)) :
    List (List String) :=
  let n := bass_chord_options.length
  let max_combinations := min 100 (4 ^ min n 6)
  let options_per_note := if 0 < n then max 2 (8 / n) else 3
  let limited_options := bass_chord_options.map (fun options => options.take options_per_note)
  if limited_options ≠ [] then (pyProduct limited_options).take max_combinations
  else []

/-- generate_bass_specific_progressions (source lines 111-137): per-note
candidate sets from get_chords_for_bass_note, then the budgeted
enumeration.  The scale degree of each bass note (the external lookup)
is the input list. -/
def generate_bass_specific_progressions (key_obj : KeyObj)
    (scale_degrees : List (Option Int)) : List (List String) :=
  let bass_chord_options := scale_degrees.enum.map (fun e =>
    get_chords_for_bass_note key_obj e.2 e.1 scale_degrees.length)
  enumerateProgressions bass_chord_options

/-! ## Progression scorer (source lines 231-313) -/

/-- Python substring membership needle in haystack, on character lists. -/
def isSubChars (needle : List Char) : List Char → Bool
  | [] => needle.isEmpty
  | c :: rest => needle.isPrefixOf (c :: rest) || isSubChars needle rest

/-- Python substring test: needle in hay. -/
def strContains (hay needle : String) : Bool := isSubChars needle.toList hay.toList

/-- The strong-progression pair set (source lines 273-280). -/
def strong_progressions : List (String × String) :=
  [("I","V"), ("I","V7"), ("I","vi"), ("I","IV"),
   ("ii","V"), ("ii","V7"), ("ii7","V7"),
   ("IV","V"), ("IV","V7"), ("IV","I"),
   ("V","I"), ("V7","I"), ("V","vi"),
   ("vi","IV"), ("vi","ii"), ("vi","V"),
   ("iii","vi"), ("iii","IV")]

/-- is_strong_progression (source lines 271-281). -/
def is_strong_progression (chord1 chord2 : String) : Bool :=
  (chord1, chord2) ∈ strong_progressions

/-- The weak-progression pair set (source lines 285-290). -/
def weak_progressions : List (String × String) :=
  [("V","IV"), ("I","ii"), ("iii","ii"),
   ("vii°","vi"), ("V7","IV"), ("iii","IV"),
   ("iii","V"), ("iii","vi"), ("I","iii"),
   ("IV","iii"), ("vi","iii")]

/-- is_weak_progression (source lines 283-291). -/
def is_weak_progression (chord1 chord2 : String) : Bool :=
  (chord1, chord2) ∈ weak_progressions

/-- score_progression (source lines 231-269).  The adjacent-pair loop
rewards strong progressions (+20) and, only otherwise (elif), penalises
weak ones (-10); then the tonic begin/end bonuses, the -30 per numeral
containing iii or III, the repetition penalty when distinct numerals fall
below 0.6 n (the float comparison agrees with the exact rational one for
every list length the arithmetic can reach, and is embedded as the exact
comparison), and the cadence bonus; finally clip at 0.  Python indexes
progression[0] and progression[-1], so callers pass a non-empty list. -/
def score_progression (progression : List String) : Int :=
  let score : Int := 100
  let score := (progression.zip progression.tail).foldl
    (fun acc e =>
      if is_strong_progression e.1 e.2 then acc + 20
      else if is_weak_progression e.1 e.2 then acc - 10
      else acc)
    score
  let score := score + (if progression.headD "" ∈ (["I", "i"] : List String) then 15 else 0)
  let score := score + (if progression.getLastD "" ∈ (["I", "i"] : List String) then 25 else 0)
  let score := progression.foldl
    (fun acc c => if strContains c "iii" || strContains c "III" then acc - 30 else acc)
    score
  let unique_chords := progression.dedup.length
  let score := score + (if 10 * unique_chords < 6 * progression.length then -15 else 0)
  let score := score +
    (if 2 ≤ progression.length then
      if (progression.dropLast).getLastD "" ∈ (["V", "V7"] : List String)
          ∧ progression.getLastD "" ∈ (["I", "i"] : List String) then 30
      else if (progression.dropLast).getLastD "" ∈ (["IV"] : List String)
          ∧ progression.getLastD "" ∈ (["I", "i"] : List String) then 20
      else 0
    else 0)
  max 0 score

/-- get_progression_style (source lines 293-300): the 7 test is a
substring test on each numeral, the vi and IV tests are list
membership. -/
def get_progression_style (progression : List String) : String :=
  if progression.any (fun c => strContains c "7") then "Jazz/Extended"
  else if "vi" ∈ progression ∧ "IV" ∈ progression then "Popular"
  else "Classical"

/-- get_progression_description (source lines 302-313). -/
def get_progression_description (progression : List String) (keyName : String) : String :=
  let style := get_progression_style progression
  let chord_sequence := String.intercalate " - " (progression.take 4)
  if style = "Classical" then
    "Classical progression in " ++ keyName ++ ": " ++ chord_sequence
  else if style = "Popular" then
    "Popular progression in " ++ keyName ++ ": " ++ chord_sequence
  else if style = "Jazz/Extended" then
    "Jazz progression in " ++ keyName ++ ": " ++ chord_sequence
  else "Progression in " ++ keyName ++ ": " ++ chord_sequence

/-! ## Ranking (source lines 89-109) -/

/-- A scored progression option as returned by generate_progression_options. -/
structure ScoredProg where
  roman_numerals : List String
  score : Int
  style : String
  description : String
deriving DecidableEq, Repr

/-- Insertion step of a stable descending sort by score: the new element
goes before the first element whose score does not exceed it, so earlier
elements win ties. -/
def insertByScoreDesc (x : ScoredProg) : List ScoredProg → List ScoredProg
  | [] => [x]
  | y :: ys => if y.score ≤ x.score then x :: y :: ys else y :: insertByScoreDesc x ys

/-- Models CPython list.sort with key score and reverse true: a stable
sort descending by score. -/
def pySortByScoreDesc (l : List ScoredProg) : List ScoredProg :=
  l.foldr insertByScoreDesc []

/-- The scored list built by generate_progression_options (source lines
97-105), in enumeration order. -/
def scoredProgressionList (key_obj : KeyObj) (keyName : String)
    (scale_degrees : List (Option Int)) : List ScoredProg :=
  (generate_bass_specific_progressions key_obj scale_degrees).map (fun prog =>
    { roman_numerals := prog
    , score := score_progression prog
    , style := get_progression_style prog
    , description := get_progression_description prog keyName })

/-- generate_progression_options (source lines 89-109): score every
enumerated progression, sort stably by descending score, return the
first five.  This list is what the analyze_bassline handler returns. -/
def generate_progression_options (key_obj : KeyObj) (keyName : String)
    (scale_degrees : List (Option Int)) : List ScoredProg :=
  (pySortByScoreDesc (scoredProgressionList key_obj keyName scale_degrees)).take 5

/-! ## SATB validator (source lines 877-1145) -/

/-- Letter displayed for a step. -/
def Step.str : Step → String
  | .C => "C" | .D => "D" | .E => "E" | .F => "F" | .G => "G" | .A => "A" | .B => "B"

/-- Printed spelling of a note name: letter plus sharps or flats, written
the way the external library prints them. -/
def NoteName.str (n : NoteName) : String :=
  n.step.str ++ (if 0 ≤ n.alter then String.join (List.replicate n.alter.natAbs "#")
                 else String.join (List.replicate n.alter.natAbs "-"))

/-- Printed pitch with octave. -/
def Pitch.str (p : Pitch) : String := p.name.str ++ toString p.octave

/-- A validation issue dict as built by validate_satb_rules. -/
structure ValidationIssue where
  type : String
  location : String
  voice : String
  description : String
  severity : String
deriving DecidableEq, Repr

/-- The result dict of validate_satb_rules. -/
structure ValidationResult where
  errors : List ValidationIssue
  warnings : List ValidationIssue
  score : Int
  suggestions : List String
deriving DecidableEq, Repr

/-- Interface of the external chord analysis used by the incomplete-chord
check: root, third and fifth pitch classes of the chord built from the
four voices, each None when the analysis finds none. -/
structure TriadFacts where
  root : Option Int
  third : Option Int
  fifth : Option Int
deriving DecidableEq, Repr

/-- Issue triple accumulated per chord pair: errors, warnings,
suggestions. -/
abbrev IssueAcc : Type := List ValidationIssue × List ValidationIssue × List String

def validatorVoiceNames : List String := ["Bass", "Tenor", "Alto", "Soprano"]

def validatorVoiceRanges : List (Pitch × Pitch) :=
  [BASS_RANGE, TENOR_RANGE, ALTO_RANGE, SOPRANO_RANGE]

/-- Voice-range checks of one chord pair (source lines 927-953). -/
def rangeIssues (chord_num : Nat) (cur next : Voicing) : IssueAcc :=
  let per := (List.range 4).map (fun j =>
    let current_p := cur.p j
    let next_p := next.p j
    let voice_name := validatorVoiceNames.getD j ""
    let voice_range := validatorVoiceRanges.getD j BASS_RANGE
    let e1 : List ValidationIssue :=
      if ¬ inRange voice_range current_p then
        [{ type := "voice_range", location := "Chord " ++ toString chord_num
         , voice := voice_name
         , description := voice_name ++ " note " ++ current_p.str
             ++ " is outside normal range"
         , severity := "error" }]
      else []
    let s1 : List String :=
      if ¬ inRange voice_range current_p then
        ["Move " ++ voice_name ++ " to within " ++ voice_range.1.str
          ++ "-" ++ voice_range.2.str]
      else []
    let e2 : List ValidationIssue :=
      if ¬ inRange voice_range next_p then
        [{ type := "voice_range", location := "Chord " ++ toString (chord_num + 1)
         , voice := voice_name
         , description := voice_name ++ " note " ++ next_p.str
             ++ " is outside normal range"
         , severity := "error" }]
      else []
    (e1 ++ e2, ([] : List ValidationIssue), s1))
  per.foldl (fun acc e => (acc.1 ++ e.1, acc.2.1 ++ e.2.1, acc.2.2 ++ e.2.2)) ([], [], [])

/-- Parallel fifth/octave/unison checks of one chord pair (source lines
955-1001), over all voice pairs j < k, by simple interval name, requiring
at least one of the two voices to have moved; plus the literal-unison
check comparing pitch names with octave. -/
def parallelIssues (chord_num : Nat) (cur next : Voicing) : IssueAcc :=
  let per := voicePairs.map (fun jk =>
    let j := jk.1
    let k := jk.2
    let interval1 := intervalSimpleName (cur.p j) (cur.p k)
    let interval2 := intervalSimpleName (next.p j) (next.p k)
    let moved := cur.p j ≠ next.p j ∨ cur.p k ≠ next.p k
    let names := validatorVoiceNames.getD j "" ++ " and " ++ validatorVoiceNames.getD k ""
    let fifths : List ValidationIssue × List String :=
      if interval1 = "P5" ∧ interval2 = "P5" ∧ moved then
        ([{ type := "parallel_fifths"
          , location := "Chords " ++ toString chord_num ++ "-" ++ toString (chord_num + 1)
          , voice := names
          , description := "Parallel fifths between " ++ names
          , severity := "error" }],
         ["Change chord voicing or try different chord progression at position "
           ++ toString chord_num])
      else ([], [])
    let octs : List ValidationIssue × List String :=
      if ((interval1 = "P8" ∧ interval2 = "P8") ∨ (interval1 = "P1" ∧ interval2 = "P1"))
          ∧ moved then
        let interval_type := if interval1 = "P1" then "unisons" else "octaves"
        ([{ type := "parallel_" ++ interval_type
          , location := "Chords " ++ toString chord_num ++ "-" ++ toString (chord_num + 1)
          , voice := names
          , description := "Parallel " ++ interval_type ++ " between " ++ names
          , severity := "error" }],
         ["Change chord voicing or try different chord progression at position "
           ++ toString chord_num])
      else ([], [])
    let lits : List ValidationIssue × List String :=
      if cur.p j = cur.p k ∧ next.p j = next.p k ∧ moved then
        ([{ type := "parallel_unisons"
          , location := "Chords " ++ toString chord_num ++ "-" ++ toString (chord_num + 1)
          , voice := names
          , description := "Parallel unisons between " ++ names
          , severity := "error" }],
         ["Separate " ++ validatorVoiceNames.getD j "" ++ " and "
           ++ validatorVoiceNames.getD k "" ++ " to different pitches"])
      else ([], [])
    (fifths.1 ++ octs.1 ++ lits.1, ([] : List ValidationIssue),
     fifths.2 ++ octs.2 ++ lits.2))
  per.foldl (fun acc e => (acc.1 ++ e.1, acc.2.1 ++ e.2.1, acc.2.2 ++ e.2.2)) ([], [], [])

/-- Voice-crossing check of one chord (source lines 1003-1013). -/
def crossingIssues (chord_num : Nat) (cur : Voicing) : IssueAcc :=
  let per := (List.range 3).map (fun j =>
    if (cur.p j).midi > (cur.p (j + 1)).midi then
      ([{ type := "voice_crossing", location := "Chord " ++ toString chord_num
        , voice := validatorVoiceNames.getD j "" ++ " and " ++ validatorVoiceNames.getD (j+1) ""
        , description := validatorVoiceNames.getD j "" ++ " crosses above "
            ++ validatorVoiceNames.getD (j+1) ""
        , severity := "error" }],
       ["Reorder voices: " ++ validatorVoiceNames.getD (j+1) "" ++ " should be higher than "
         ++ validatorVoiceNames.getD j ""])
    else ([], []))
  per.foldl (fun acc e => (acc.1 ++ e.1, acc.2.1, acc.2.2 ++ e.2)) ([], [], [])

/-- Incomplete-chord check of one chord (source lines 1015-1040), with the
Python truthiness quirk: a tone whose pitch class is 0 never registers as
missing. -/
def incompleteIssues (chord_num : Nat) (analyze : Voicing → TriadFacts)
    (cur : Voicing) : IssueAcc :=
  let current_pitch_classes := (cur.pitches.map Pitch.pitchClass).dedup
  if current_pitch_classes.length < 3 then
    let f := analyze cur
    let missing_tones :=
      (match f.root with
       | some r => if r ≠ 0 ∧ r ∉ current_pitch_classes then ["root"] else []
       | none => [])
      ++ (match f.third with
          | some t => if t ≠ 0 ∧ t ∉ current_pitch_classes then ["third"] else []
          | none => [])
      ++ (match f.fifth with
          | some t => if t ≠ 0 ∧ t ∉ current_pitch_classes then ["fifth"] else []
          | none => [])
    if missing_tones ≠ [] then
      ([{ type := "incomplete_chord", location := "Chord " ++ toString chord_num
        , voice := "All voices"
        , description := "Incomplete chord: missing " ++ String.intercalate ", " missing_tones
        , severity := "error" }],
       [],
       ["Include all chord tones (root, third, fifth) in chord " ++ toString chord_num])
    else ([], [], [])
  else ([], [], [])

/-- Large-leap check of one chord pair (source lines 1042-1057): bass may
leap an octave, upper voices a sixth; larger leaps are errors above 12
semitones, warnings otherwise, and both are appended to the error
list. -/
def leapIssues (chord_num : Nat) (cur next : Voicing) : IssueAcc :=
  let per := (List.range 4).map (fun j =>
    let voice_name := validatorVoiceNames.getD j ""
    let leap := ((cur.p j).midi - (next.p j).midi).natAbs
    let max_leap := if j = 0 then 12 else 6
    if max_leap < leap then
      let severity := if 12 < leap then "error" else "warning"
      ([{ type := "large_leap"
        , location := "Chords " ++ toString chord_num ++ "-" ++ toString (chord_num + 1)
        , voice := voice_name
        , description := voice_name ++ " leaps " ++ toString leap ++ " semitones (>"
            ++ toString max_leap ++ " limit)"
        , severity := severity }],
       if severity = "error" then
         ["Reduce " ++ voice_name ++ " leap by changing chord voicing or progression"]
       else [])
    else ([], []))
  per.foldl (fun acc e => (acc.1 ++ e.1, acc.2.1, acc.2.2 ++ e.2)) ([], [], [])

/-- Tendency-tone check of one chord pair (source lines 1059-1081): on a
V-to-I step of the written progression, every voice holding the leading
tone must move to the tonic name, else a warning. -/
def tendencyIssues (key_obj : KeyObj) (chord_progression : List String)
    (i : Nat) (cur next : Voicing) : IssueAcc :=
  let chord_num := i + 1
  if i < chord_progression.length - 1 then
    let current_roman := chord_progression.getD i ""
    let next_roman := chord_progression.getD (i + 1) ""
    if strContains current_roman "V"
        ∧ (strContains next_roman "I" || strContains next_roman "i") then
      let per := (List.range 4).map (fun j =>
        if (cur.p j).name = key_obj.leadingTone then
          if (next.p j).name ≠ key_obj.tonic then
            ([{ type := "tendency_tone"
              , location := "Chords " ++ toString chord_num ++ "-" ++ toString (chord_num + 1)
              , voice := validatorVoiceNames.getD j ""
              , description := "Leading tone in " ++ validatorVoiceNames.getD j ""
                  ++ " should resolve to tonic"
              , severity := "warning" }],
             ["Resolve leading tone in " ++ validatorVoiceNames.getD j ""
               ++ " upward to tonic"])
          else ([], [])
        else ([], []))
      per.foldl (fun acc e => (acc.1, acc.2.1 ++ e.1, acc.2.2 ++ e.2)) ([], [], [])
    else ([], [], [])
  else ([], [], [])

/-- Spacing check of one chord (source lines 1083-1105): warnings when
soprano-alto or alto-tenor exceed an octave. -/
def spacingIssues (chord_num : Nat) (cur : Voicing) : IssueAcc :=
  let soprano_alto := (cur.p 3).midi - (cur.p 2).midi
  let alto_tenor := (cur.p 2).midi - (cur.p 1).midi
  let w1 : List ValidationIssue × List String :=
    if 12 < soprano_alto then
      ([{ type := "wide_spacing", location := "Chord " ++ toString chord_num
        , voice := "Soprano-Alto"
        , description := "Wide spacing between Soprano and Alto ("
            ++ toString soprano_alto ++ " semitones)"
        , severity := "warning" }],
       ["Keep upper voices within an octave of each other"])
    else ([], [])
  let w2 : List ValidationIssue × List String :=
    if 12 < alto_tenor then
      ([{ type := "wide_spacing", location := "Chord " ++ toString chord_num
        , voice := "Alto-Tenor"
        , description := "Wide spacing between Alto and Tenor ("
            ++ toString alto_tenor ++ " semitones)"
        , severity := "warning" }],
       ["Keep upper voices within an octave of each other"])
    else ([], [])
  ([], w1.1 ++ w2.1, w1.2 ++ w2.2)

/-- All checks of the loop body for chord pair i (source lines 922-1105),
in source order. -/
def pairStepIssues (key_obj : KeyObj) (analyze : Voicing → TriadFacts)
    (chord_progression : List String) (i : Nat) (cur next : Voicing) : IssueAcc :=
  let chord_num := i + 1
  let parts : List IssueAcc :=
    [rangeIssues chord_num cur next,
     parallelIssues chord_num cur next,
     crossingIssues chord_num cur,
     incompleteIssues chord_num analyze cur,
     leapIssues chord_num cur next,
     tendencyIssues key_obj chord_progression i cur next,
     spacingIssues chord_num cur]
  parts.foldl (fun acc e => (acc.1 ++ e.1, acc.2.1 ++ e.2.1, acc.2.2 ++ e.2.2)) ([], [], [])

/-- The compromise penalty of validate_satb_rules (source lines
1112-1120): 15 per high, 10 per medium, 5 per anything else. -/
def compromisePenalty (compromises : List Compromise) : Int :=
  compromises.foldl
    (fun acc c =>
      acc + (if c.severity = "high" then 15
             else if c.severity = "medium" then 10 else 5))
    0

/-- validate_satb_rules (source lines 877-1145).  The input realization
arrives already parsed (note parsing is the external library, so the
parse-failure paths that Python reaches through exceptions are dead); the
key object is the parsed key.  Fewer than two chords short-circuits to a
perfect score.  Otherwise every consecutive pair is checked, and the
score counts the error-severity and warning-severity entries of the error
list only: the warnings list (tendency_tone, wide_spacing) never enters
the score. -/
def validate_satb_rules (key_obj : KeyObj) (analyze : Voicing → TriadFacts)
    (satb_data : List SATBVoice) (chord_progression : List String)
    (compromises : List Compromise) : ValidationResult :=
  if satb_data.length < 2 then
    { errors := [], warnings := [], score := 100, suggestions := [] }
  else
    let chords := satb_data.map (fun e => Voicing.mk e.bass e.tenor e.alto e.soprano)
    let steps := (chords.zip chords.tail).enum.map (fun e =>
      pairStepIssues key_obj analyze chord_progression e.1 e.2.1 e.2.2)
    let acc := steps.foldl
      (fun acc e => (acc.1 ++ e.1, acc.2.1 ++ e.2.1, acc.2.2 ++ e.2.2)) ([], [], [])
    let errors := acc.1
    let warnings := acc.2.1
    let suggestions := acc.2.2
    let error_count := (errors.filter (fun e => e.severity = "error")).length
    let warning_count := (errors.filter (fun e => e.severity = "warning")).length
    let compromise_penalty := compromisePenalty compromises
    let score : Int :=
      max 0 (100 - (error_count * 20) - (warning_count * 5) - compromise_penalty)
    let suggestions :=
      if 0 < error_count then
        ("Found " ++ toString error_count
          ++ " serious errors - consider trying a different chord progression")
          :: suggestions
      else if 2 < warning_count then
        ("Found " ++ toString warning_count
          ++ " minor issues - harmonization could be improved") :: suggestions
      else if error_count = 0 ∧ warning_count ≤ 1 then
        "Good SATB writing! Minor or no issues found." :: suggestions
      else suggestions
    { errors := errors, warnings := warnings, score := score
    , suggestions := suggestions.dedup }

/-! ## realize_satb handler (source lines 315-347) -/

/-- The request body as the handler reads it: each field may be absent
(data.get with a default). -/
structure ReqData where
  chord_progression : Option (List String)
  bass_notes : Option (List BassInput)
  key : Option String

/-- realize_satb (source lines 315-347).  The JSON parse and the body of
the try block past the two emptiness checks are fallible computations;
any exception raised anywhere inside the try block is caught and turned
into a 500 response whose body is the stringified message, so the result
is always a status code with either a payload or an error string. -/
def realize_satb {α : Type} (parse : Except String ReqData)
    (core : List String → List BassInput → String → Except String α) :
    Nat × Except String α :=
  match parse with
  | .error e => (500, .error e)
  | .ok data =>
    let chord_progression := data.chord_progression.getD []
    let bass_notes := data.bass_notes.getD []
    let key_name := data.key.getD "C major"
    if chord_progression = [] then (400, .error "No chord progression provided")
    else if bass_notes = [] then (400, .error "No bass notes provided")
    else
      match core chord_progression bass_notes key_name with
      | .ok r => (200, .ok r)
      | .error e => (500, .error e)

/-! ## Reference definitions taken from the specification text -/

/-- Reference scorer written exactly as the claim words it: for each
adjacent pair, add 20 if the pair is in the strong-progression set and
subtract 10 if it is in the weak-progression set (both, when it is in
both); then the global terms and the clip at 0. -/
def refScoreClaim (progression : List String) : Int :=
  let pairTerms := (progression.zip progression.tail).map (fun e =>
    (if is_strong_progression e.1 e.2 then (20 : Int) else 0)
      + (if is_weak_progression e.1 e.2 then (-10 : Int) else 0))
  let firstBonus : Int := if progression.headD "" ∈ (["I", "i"] : List String) then 15 else 0
  let lastBonus : Int := if progression.getLastD "" ∈ (["I", "i"] : List String) then 25 else 0
  let iiiTerm : Int := (progression.map (fun c =>
    if strContains c "iii" || strContains c "III" then (-30 : Int) else 0)).sum
  let distinctTerm : Int :=
    if 10 * progression.dedup.length < 6 * progression.length then -15 else 0
  let cadence : Int :=
    if 2 ≤ progression.length then
      if (progression.dropLast).getLastD "" ∈ (["V", "V7"] : List String)
          ∧ progression.getLastD "" ∈ (["I", "i"] : List String) then 30
      else if (progression.dropLast).getLastD "" = "IV"
          ∧ progression.getLastD "" ∈ (["I", "i"] : List String) then 20
      else 0
    else 0
  max 0 (100 + pairTerms.sum + firstBonus + lastBonus + iiiTerm + distinctTerm + cadence)

/-- Adjacent-pair term with the precedence the code actually applies:
the weak-set deduction only fires when the pair is not in the strong
set. -/
def pairTermAmended (c n : String) : Int :=
  if is_strong_progression c n then 20
  else if is_weak_progression c n then -10
  else 0

/-- Reference scorer amended with the precedence the code applies: the
per-pair term uses pairTermAmended, all other terms are as the claim
words them. -/
def refScoreAmended (progression : List String) : Int :=
  let pairTerms := (progression.zip progression.tail).map (fun e =>
    pairTermAmended e.1 e.2)
  let firstBonus : Int := if progression.headD "" ∈ (["I", "i"] : List String) then 15 else 0
  let lastBonus : Int := if progression.getLastD "" ∈ (["I", "i"] : List String) then 25 else 0
  let iiiTerm : Int := (progression.map (fun c =>
    if strContains c "iii" || strContains c "III" then (-30 : Int) else 0)).sum
  let distinctTerm : Int :=
    if 10 * progression.dedup.length < 6 * progression.length then -15 else 0
  let cadence : Int :=
    if 2 ≤ progression.length then
      if (progression.dropLast).getLastD "" ∈ (["V", "V7"] : List String)
          ∧ progression.getLastD "" ∈ (["I", "i"] : List String) then 30
      else if (progression.dropLast).getLastD "" = "IV"
          ∧ progression.getLastD "" ∈ (["I", "i"] : List String) then 20
      else 0
    else 0
  max 0 (100 + pairTerms.sum + firstBonus + lastBonus + iiiTerm + distinctTerm + cadence)

/-- Reference bass-to-chord map following the specification text:
candidates from the fixed table for the degree and mode, the tonic
numeral alone when the key cannot place the pitch (and for the
out-of-table degrees the fallback arithmetic can produce), the
first/last position overrides with the first position taking precedence,
then truncation to the first three entries. -/
def refBassChordMap (key_obj : KeyObj) (deg : Option Int) (pos total : Nat) :
    List String :=
  let tonicOnly := if key_obj.mode = "major" then ["I"] else ["i"]
  match deg with
  | none => tonicOnly
  | some d =>
    let base :=
      ((if key_obj.mode = "major" then chord_options_major else chord_options_minor) d).getD
        tonicOnly
    let cands :=
      if pos = 0 then
        if d = 1 then tonicOnly else if d = 5 then ["V", "V7"] else base
      else if pos = total - 1 then
        if d = 1 then tonicOnly else if d = 5 then ["V7"] else base
      else base
    cands.take 3

/-! ## Concrete fixtures used by the closed theorems -/

/-- The key of C major through the external key interface. -/
def cMajorKey : KeyObj :=
  { tonic := ⟨.C, 0⟩, mode := "major"
  , scalePitches := [⟨.C,0⟩, ⟨.D,0⟩, ⟨.E,0⟩, ⟨.F,0⟩, ⟨.G,0⟩, ⟨.A,0⟩, ⟨.B,0⟩]
  , leadingTone := ⟨.B, 0⟩ }

/-- The dominant seventh of C major (G B D F) through the external
Roman-numeral interface. -/
def v7Chord : RomanChord :=
  { root := ⟨.G, 0⟩, third := ⟨.B, 0⟩, fifth := ⟨.D, 0⟩, seventh := some ⟨.F, 0⟩ }

/-- The tonic triad of C major through the external Roman-numeral
interface. -/
def iChordC : RomanChord :=
  { root := ⟨.C, 0⟩, third := ⟨.E, 0⟩, fifth := ⟨.G, 0⟩, seventh := none }

/-- A concrete numeral expander defined on the single numeral I, standing
in for the external expander at the witness inputs. -/
def expandCI : String → RomanChord := fun _ => iChordC

/-- A concrete fallible numeral expander that accepts every numeral as
the C-major tonic triad, standing in for the external expander at the
witness inputs of the harmonization wrapper. -/
def expandSomeCI : String → Option RomanChord := fun _ => some iChordC

/-- A concrete chord-analysis oracle for witness evaluation. -/
def simpleFacts : Voicing → ChordFacts := fun v =>
  { root := v.bass.name, third := none, fifth := none, seventh := none, inversion := 1 }

/-- A concrete triad-analysis oracle for witness evaluation. -/
def simpleTriad : Voicing → TriadFacts := fun _ =>
  { root := none, third := none, fifth := none }

/-- The first voicing the fixed-bass generator produces for V7 over G3 in
C major: G3 D4 G4 B4, with the root doubled and no seventh. -/
def v7FirstVoicing : Voicing :=
  ⟨⟨⟨.G, 0⟩, 3⟩, ⟨⟨.D, 0⟩, 4⟩, ⟨⟨.G, 0⟩, 4⟩, ⟨⟨.B, 0⟩, 4⟩⟩

/-- A realization chord C3 E3 G3 G#4 whose soprano sits thirteen
semitones above the alto. -/
def wideChord : SATBVoice :=
  { bass := ⟨⟨.C, 0⟩, 3⟩, tenor := ⟨⟨.E, 0⟩, 3⟩, alto := ⟨⟨.G, 0⟩, 3⟩
  , soprano := ⟨⟨.G, 1⟩, 4⟩, chord := "I" }

/-- A two-chord realization repeating wideChord: no voice moves, so the
only diagnostic is one wide-spacing warning. -/
def wideRealization : List SATBVoice := [wideChord, wideChord]

/-- Concrete candidate sets for evaluating the enumerator. -/
def c7Sets : List (List String) := [["I", "V"], ["IV"]]

/-- Two concrete chords whose tenor and alto sound the same pitch and
move together: C3 E4 E4 C5 to C3 F4 F4 C5. -/
def unisonChord1 : Voicing :=
  ⟨⟨⟨.C, 0⟩, 3⟩, ⟨⟨.E, 0⟩, 4⟩, ⟨⟨.E, 0⟩, 4⟩, ⟨⟨.C, 0⟩, 5⟩⟩

def unisonChord2 : Voicing :=
  ⟨⟨⟨.C, 0⟩, 3⟩, ⟨⟨.F, 0⟩, 4⟩, ⟨⟨.F, 0⟩, 4⟩, ⟨⟨.C, 0⟩, 5⟩⟩

/-! ## Theorems -/

/-- C4, counterexample.  A voice pair sounding a true unison in both
chords while moving (tenor and alto here) is charged 550 by the
parallel-motion block of progressionCost: the +300 penalty applies on top
of +250, because the source tests only congruence to 0 mod 12 with no
nonzero requirement.  The claim predicts 250 for this pair. -/
theorem c4_unison_pair_counterexample :
    pairPenalty unisonChord1 unisonChord2 1 2 = 550
    ∧ pairPenalty unisonChord1 unisonChord2 1 2 ≠ 250 := by
  constructor <;> decide

/-- C4, amended.  In the transition cost, the +300 penalty is added
whenever both intervals are congruent to 0 mod 12, including true
unisons: every non-stationary pair with both intervals exactly 0 is
charged 250 + 300 = 550, plus the 50 outer-voice similar-motion penalty
when the pair is bass and soprano and the common midi value moves (an
arrival interval of 0 mod 12 counts as hidden motion). -/
theorem c4_unison_pair_amended (chord1 chord2 : Voicing) (i j : Nat)
    (hmove : ¬ (chord1.p j = chord2.p j ∧ chord1.p i = chord2.p i))
    (h1 : (chord1.p j).midi - (chord1.p i).midi = 0)
    (h2 : (chord2.p j).midi - (chord2.p i).midi = 0) :
    pairPenalty chord1 chord2 i j
      = 550 + (if i = 0 ∧ j = 3 ∧ (chord1.p j).midi ≠ (chord2.p j).midi
          then 50 else 0) := by
  unfold pairPenalty
  rw [if_neg hmove]
  simp only [h1, h2]
  have hb1 : (chord1.p i).midi = (chord1.p j).midi := by omega
  have hb2 : (chord2.p i).midi = (chord2.p j).midi := by omega
  rw [hb1, hb2]
  norm_num
  by_cases hij : i = 0 ∧ j = 3
  · by_cases hne : (chord1.p j).midi = (chord2.p j).midi
    · rw [if_pos hij, if_pos hne, if_neg (by tauto)]
    · rw [if_pos hij, if_neg hne, if_pos ⟨hij.1, hij.2, hne⟩]
  · rw [if_neg hij, if_neg (by tauto)]

/-- C4, witness for the amended theorem at the concrete tenor/alto
pair. -/
theorem c4_unison_pair_witness :
    pairPenalty unisonChord1 unisonChord2 1 2
      = 550 + (if (1 : Nat) = 0 ∧ (2 : Nat) = 3
          ∧ (unisonChord1.p 2).midi ≠ (unisonChord2.p 2).midi
          then 50 else 0) :=
  c4_unison_pair_amended unisonChord1 unisonChord2 1 2
    (by decide) (by decide) (by decide)

/-- The adjacent-pair loop of score_progression as a sum of per-pair
terms with the strong-before-weak precedence. -/
theorem score_pairs_foldl (l : List (String × String)) (init : Int) :
    l.foldl
      (fun acc e =>
        if is_strong_progression e.1 e.2 then acc + 20
        else if is_weak_progression e.1 e.2 then acc - 10
        else acc)
      init
    = init + (l.map (fun e => pairTermAmended e.1 e.2)).sum := by
  induction l generalizing init with
  | nil => simp
  | cons x xs ih =>
    simp only [List.foldl_cons, List.map_cons, List.sum_cons]
    split_ifs with h1 h2
    · rw [ih]; simp only [pairTermAmended, if_pos h1]; ring
    · rw [ih]; simp only [pairTermAmended, if_neg h1, if_pos h2]; ring
    · rw [ih]; simp only [pairTermAmended, if_neg h1, if_neg h2]; ring

/-- The iii-penalty loop of score_progression as a sum of per-numeral
terms. -/
theorem score_iii_foldl (l : List String) (init : Int) :
    l.foldl
      (fun acc c => if strContains c "iii" || strContains c "III" then acc - 30 else acc)
      init
    = init + (l.map (fun c =>
        if strContains c "iii" || strContains c "III" then (-30 : Int) else 0)).sum := by
  induction l generalizing init with
  | nil => simp
  | cons x xs ih =>
    simp only [List.foldl_cons, List.map_cons, List.sum_cons]
    split_ifs <;> rw [ih] <;> ring

/-- C5, counterexample.  On the progression iii, vi — whose adjacent pair
sits in both the strong and the weak set — the code scores 90 (the weak
deduction never fires because the strong check takes precedence), while
the claim's reference definition, applying both terms, yields 80. -/
theorem c5_score_progression_counterexample :
    score_progression ["iii", "vi"] = 90
    ∧ refScoreClaim ["iii", "vi"] = 80
    ∧ score_progression ["iii", "vi"] ≠ refScoreClaim ["iii", "vi"] := by
  refine ⟨by decide, by decide, by decide⟩

/-- C5, amended.  The progression score equals the reference definition
in which the weak-set deduction applies only to pairs not in the strong
set (the two overlapping pairs (iii,vi) and (iii,IV) only receive +20);
all other terms are as the claim states. -/
theorem c5_score_progression_amended (progression : List String)
    (h : progression ≠ []) :
    score_progression progression = refScoreAmended progression := by
  simp only [score_progression, refScoreAmended, score_pairs_foldl, score_iii_foldl,
    List.mem_singleton]

/-- C5, witness: the amended scorer agrees with the code on a concrete
progression. -/
theorem c5_score_progression_witness :
    score_progression ["I", "IV", "V", "I"] = refScoreAmended ["I", "IV", "V", "I"] :=
  c5_score_progression_amended ["I", "IV", "V", "I"] (by decide)

/-- C6.  For every key mode, scale-degree lookup outcome and position,
get_chords_for_bass_note returns exactly the reference map: the fixed
table for the degree and mode, overridden at the first position (tonic
only on degree 1, V and V7 on degree 5) and at the last position (tonic
only on degree 1, V7 on degree 5, with the first-position override taking
precedence when both apply), truncated to the first three entries; and
the tonic numeral alone when the pitch is not diatonic. -/
theorem c6_bass_chord_map (key_obj : KeyObj) (scale_degree : Option Int)
    (position total_length : Nat) :
    get_chords_for_bass_note key_obj scale_degree position total_length
      = refBassChordMap key_obj scale_degree position total_length := by
  unfold get_chords_for_bass_note refBassChordMap
  rcases scale_degree with _ | d
  · by_cases hm : key_obj.mode = "major" <;> simp [hm]
  · by_cases hm : key_obj.mode = "major" <;>
      simp only [hm, if_true, if_false, Option.some.injEq]

/-- C2, counterexample.  On a concrete two-chord realization whose only
diagnostic is one wide-spacing warning (reported in the warnings list),
the validator scores 100: the claimed formula, which counts every
warning-severity issue reported including wide_spacing, predicts 95. -/
theorem c2_score_counterexample :
    (validate_satb_rules cMajorKey simpleTriad wideRealization ["I", "I"] []).score = 100
    ∧ ((validate_satb_rules cMajorKey simpleTriad wideRealization ["I", "I"] []).warnings.map
        (fun w => w.type)) = ["wide_spacing"]
    ∧ (validate_satb_rules cMajorKey simpleTriad wideRealization ["I", "I"] []).errors = []
    ∧ (validate_satb_rules cMajorKey simpleTriad wideRealization ["I", "I"] []).score
        ≠ max 0 (100
            - (((((validate_satb_rules cMajorKey simpleTriad wideRealization ["I", "I"]
                  []).errors
                ++ (validate_satb_rules cMajorKey simpleTriad wideRealization ["I", "I"]
                  []).warnings).filter
                (fun e => e.severity = "error")).length : Int) * 20)
            - (((((validate_satb_rules cMajorKey simpleTriad wideRealization ["I", "I"]
                  []).errors
                ++ (validate_satb_rules cMajorKey simpleTriad wideRealization ["I", "I"]
                  []).warnings).filter
                (fun e => e.severity = "warning")).length : Int) * 5)
            - compromisePenalty []) := by
  refine ⟨by decide, by decide, by decide, by decide⟩

/-- C2, amended.  For realizations of at least two chords, the validator
score equals max(0, 100 - 20 x errorCount - 5 x warningCount -
compromisePenalty) where both counts range over the error list only:
error-severity entries and warning-severity entries of that list (the
latter are the large-leap warnings).  The warnings list (wide_spacing,
tendency_tone) never enters the score, and the penalty is 15 per high,
10 per medium and 5 per every other compromise. -/
theorem c2_score_formula_amended (key_obj : KeyObj)
    (analyze : Voicing → TriadFacts) (satb_data : List SATBVoice)
    (chord_progression : List String) (compromises : List Compromise)
    (h : 2 ≤ satb_data.length) :
    (validate_satb_rules key_obj analyze satb_data chord_progression compromises).score
      = max 0 (100
          - ((((validate_satb_rules key_obj analyze satb_data chord_progression
                compromises).errors.filter
              (fun e => e.severity = "error")).length : Int) * 20)
          - ((((validate_satb_rules key_obj analyze satb_data chord_progression
                compromises).errors.filter
              (fun e => e.severity = "warning")).length : Int) * 5)
          - compromisePenalty compromises) := by
  unfold validate_satb_rules
  rw [if_neg (by omega)]

/-- C2, witness for the amended formula at the concrete realization. -/
theorem c2_score_formula_witness :
    (validate_satb_rules cMajorKey simpleTriad wideRealization ["I", "I"] []).score
      = max 0 (100
          - ((((validate_satb_rules cMajorKey simpleTriad wideRealization ["I", "I"]
                []).errors.filter
              (fun e => e.severity = "error")).length : Int) * 20)
          - ((((validate_satb_rules cMajorKey simpleTriad wideRealization ["I", "I"]
                []).errors.filter
              (fun e => e.severity = "warning")).length : Int) * 5)
          - compromisePenalty []) :=
  c2_score_formula_amended cMajorKey simpleTriad wideRealization ["I", "I"] []
    (by decide)

/-- C9.  The realize_satb handler returns 400 with the fixed message when
the chord progression is missing or empty, 400 when the bass notes are
missing or empty (with a progression present), converts every failure of
the remaining body into a 500 response carrying the error string, and in
all cases returns one of the statuses 200, 400, 500 with an error-string
body exactly on the non-200 statuses. -/
theorem c9_realize_satb_error_envelope {α : Type} :
    (∀ (d : ReqData) (core : List String → List BassInput → String → Except String α),
        d.chord_progression.getD [] = [] →
        realize_satb (.ok d) core = (400, .error "No chord progression provided"))
    ∧ (∀ (d : ReqData) (core : List String → List BassInput → String → Except String α),
        d.chord_progression.getD [] ≠ [] → d.bass_notes.getD [] = [] →
        realize_satb (.ok d) core = (400, .error "No bass notes provided"))
    ∧ (∀ (d : ReqData) (core : List String → List BassInput → String → Except String α)
        (e : String),
        d.chord_progression.getD [] ≠ [] → d.bass_notes.getD [] ≠ [] →
        core (d.chord_progression.getD []) (d.bass_notes.getD [])
          (d.key.getD "C major") = .error e →
        realize_satb (.ok d) core = (500, .error e))
    ∧ (∀ (parse : Except String ReqData)
        (core : List String → List BassInput → String → Except String α),
        ((realize_satb parse core).1 = 200 ∧ ∃ r, (realize_satb parse core).2 = .ok r)
        ∨ ((realize_satb parse core).1 = 400 ∨ (realize_satb parse core).1 = 500)
          ∧ ∃ e, (realize_satb parse core).2 = .error e) := by
  refine ⟨?_, ?_, ?_, ?_⟩
  · intro d core hcp
    simp only [realize_satb]
    rw [if_pos hcp]
  · intro d core hcp hbn
    simp only [realize_satb]
    rw [if_neg hcp, if_pos hbn]
  · intro d core e hcp hbn hcore
    simp only [realize_satb]
    rw [if_neg hcp, if_neg hbn, hcore]
  · intro parse core
    simp only [realize_satb]
    rcases parse with e | d
    · exact Or.inr ⟨Or.inr rfl, e, rfl⟩
    · simp only []
      by_cases hcp : d.chord_progression.getD [] = []
      · rw [if_pos hcp]
        exact Or.inr ⟨Or.inl rfl, _, rfl⟩
      · rw [if_neg hcp]
        by_cases hbn : d.bass_notes.getD [] = []
        · rw [if_pos hbn]
          exact Or.inr ⟨Or.inl rfl, _, rfl⟩
        · rw [if_neg hbn]
          rcases hc : core (d.chord_progression.getD []) (d.bass_notes.getD [])
            (d.key.getD "C major") with e | r
          · exact Or.inr ⟨Or.inr rfl, e, rfl⟩
          · exact Or.inl ⟨rfl, r, rfl⟩

/-- C9, witness: the handler at a concrete empty-progression request. -/
theorem c9_realize_satb_witness :
    realize_satb (α := Unit) (.ok ⟨some [], some [], none⟩)
      (fun _ _ _ => .error "boom")
      = (400, .error "No chord progression provided") :=
  c9_realize_satb_error_envelope.1 ⟨some [], some [], none⟩
    (fun _ _ _ => .error "boom") rfl

/-- Length of a product block: mapping a section over a fixed list inside
flatMap multiplies lengths. -/
theorem flatMap_map_length {α β γ : Type} (l : List α) (m : List β) (g : α → β → γ) :
    (l.flatMap (fun x => m.map (g x))).length = l.length * m.length := by
  induction l with
  | nil => simp
  | cons x xs ih => simp [ih, Nat.succ_mul, Nat.add_comm]

/-- The Cartesian product has as many tuples as the product of the set
sizes. -/
theorem pyProduct_length {α : Type} (ls : List (List α)) :
    (pyProduct ls).length = (ls.map List.length).prod := by
  induction ls with
  | nil => rfl
  | cons l ls ih =>
    simp only [pyProduct, List.map_cons, List.prod_cons, flatMap_map_length, ih]

/-- The Cartesian product is lexicographic: the tuple at position k picks
element k / b of the first set, where b is the size of the rest of the
product, and continues at position k mod b inside it. -/
theorem pyProduct_getElem? {α : Type} (l : List α) (ls : List (List α)) (k : Nat) :
    (pyProduct (l :: ls))[k]? =
      (l[k / (pyProduct ls).length]?).bind
        (fun x => ((pyProduct ls)[k % (pyProduct ls).length]?).map (fun r => x :: r)) := by
  induction l generalizing k with
  | nil => simp [pyProduct]
  | cons x xs ih =>
    have hsplit : pyProduct ((x :: xs) :: ls)
        = (pyProduct ls).map (fun r => x :: r) ++ pyProduct (xs :: ls) := by
      simp [pyProduct]
    rw [hsplit]
    by_cases hk : k < (pyProduct ls).length
    · rw [List.getElem?_append_left (by simpa using hk)]
      rw [List.getElem?_map, Nat.div_eq_of_lt hk, Nat.mod_eq_of_lt hk]
      rcases hx : (pyProduct ls)[k]? with _ | r <;> simp [hx]
    · push_neg at hk
      rw [List.getElem?_append_right (by simpa using hk), List.length_map]
      rw [ih (k - (pyProduct ls).length)]
      by_cases hm : (pyProduct ls).length = 0
      · rw [hm]
        rw [List.length_eq_zero.mp hm]
        simp
      · have hm' : 0 < (pyProduct ls).length := Nat.pos_of_ne_zero hm
        rw [Nat.div_eq_sub_div hm' hk, Nat.mod_eq_sub_mod hk]
        simp

/-- C7.  For a non-empty list of candidate sets, the enumerator emits
exactly the first min(100, 4 ^ min(n, 6)) tuples of the Cartesian product
of the sets truncated to their first max(2, 8 / n) entries (pyProduct
being the lexicographic product by pyProduct_getElem?), so its output
length is that budget capped by the size of the truncated product. -/
theorem c7_enumerator_budget (s : List (List String)) (h : s ≠ []) :
    enumerateProgressions s
      = (pyProduct (s.map (fun t => t.take (max 2 (8 / s.length))))).take
          (min 100 (4 ^ min s.length 6))
    ∧ (enumerateProgressions s).length
      = min (min 100 (4 ^ min s.length 6))
          ((s.map (fun t => min (max 2 (8 / s.length)) t.length)).prod) := by
  have hn : 0 < s.length := List.length_pos.mpr h
  have hmap : s.map (fun options => options.take (max 2 (8 / s.length))) ≠ [] := by
    simpa using h
  have h1 : enumerateProgressions s
      = (pyProduct (s.map (fun t => t.take (max 2 (8 / s.length))))).take
          (min 100 (4 ^ min s.length 6)) := by
    simp only [enumerateProgressions]
    rw [if_pos hn, if_pos hmap]
  refine ⟨h1, ?_⟩
  rw [h1, List.length_take, pyProduct_length, List.map_map]
  congr 1
  simp only [Function.comp_def, List.length_take]

/-- C7, witness at two concrete candidate sets. -/
theorem c7_enumerator_witness :
    enumerateProgressions c7Sets
      = (pyProduct (c7Sets.map (fun t => t.take (max 2 (8 / c7Sets.length))))).take
          (min 100 (4 ^ min c7Sets.length 6))
    ∧ (enumerateProgressions c7Sets).length
      = min (min 100 (4 ^ min c7Sets.length 6))
          ((c7Sets.map (fun t => min (max 2 (8 / c7Sets.length)) t.length)).prod) :=
  c7_enumerator_budget c7Sets (by decide)

/-- Membership after a sorted insertion. -/
theorem mem_insertByScoreDesc {a x : ScoredProg} {l : List ScoredProg} :
    a ∈ insertByScoreDesc x l ↔ a = x ∨ a ∈ l := by
  induction l with
  | nil => simp [insertByScoreDesc]
  | cons y ys ih =>
    simp only [insertByScoreDesc]
    split_ifs
    · simp [List.mem_cons]
    · simp only [List.mem_cons, ih]
      tauto

/-- Insertion preserves the descending-by-score pairwise order. -/
theorem pairwise_insertByScoreDesc {x : ScoredProg} {l : List ScoredProg}
    (hl : l.Pairwise (fun a b => b.score ≤ a.score)) :
    (insertByScoreDesc x l).Pairwise (fun a b => b.score ≤ a.score) := by
  induction l with
  | nil => simp [insertByScoreDesc]
  | cons y ys ih =>
    rw [List.pairwise_cons] at hl
    obtain ⟨hy, hys⟩ := hl
    simp only [insertByScoreDesc]
    split_ifs with hc
    · refine List.Pairwise.cons ?_ (List.Pairwise.cons hy hys)
      intro z hz
      rcases List.mem_cons.mp hz with rfl | hz'
      · exact hc
      · exact le_trans (hy z hz') hc
    · refine List.Pairwise.cons ?_ (ih hys)
      intro z hz
      rcases mem_insertByScoreDesc.mp hz with rfl | hz'
      · exact le_of_lt (lt_of_not_ge hc)
      · exact hy z hz'

/-- The modelled Python sort is descending by score. -/
theorem pairwise_pySortByScoreDesc (l : List ScoredProg) :
    (pySortByScoreDesc l).Pairwise (fun a b => b.score ≤ a.score) := by
  induction l with
  | nil => simp [pySortByScoreDesc]
  | cons x xs ih => exact pairwise_insertByScoreDesc ih

/-- Inserting into the sort keeps every equal-score fibre in order: the
elements strictly above the insertion point all have strictly larger
scores. -/
theorem filter_insertByScoreDesc (s : Int) (x : ScoredProg) (l : List ScoredProg) :
    (insertByScoreDesc x l).filter (fun y => y.score = s)
      = if x.score = s then x :: l.filter (fun y => y.score = s)
        else l.filter (fun y => y.score = s) := by
  induction l with
  | nil =>
    simp only [insertByScoreDesc, List.filter_cons, List.filter_nil, decide_eq_true_eq]
  | cons y ys ih =>
    simp only [insertByScoreDesc]
    by_cases hc : y.score ≤ x.score
    · rw [if_pos hc]
      simp only [List.filter_cons, decide_eq_true_eq]
    · rw [if_neg hc]
      by_cases hx : x.score = s
      · have hy : ¬ (y.score = s) := by
          intro hys
          exact hc (le_of_eq (hys.trans hx.symm))
        simp only [List.filter_cons, decide_eq_true_eq, if_pos hx, if_neg hy, ih]
      · simp only [List.filter_cons, decide_eq_true_eq, if_neg hx, ih]

/-- Stability of the modelled Python sort: every equal-score fibre of the
output equals the same fibre of the input, in order. -/
theorem filter_pySortByScoreDesc (s : Int) (l : List ScoredProg) :
    (pySortByScoreDesc l).filter (fun y => y.score = s)
      = l.filter (fun y => y.score = s) := by
  induction l with
  | nil => rfl
  | cons x xs ih =>
    have hstep : pySortByScoreDesc (x :: xs)
        = insertByScoreDesc x (pySortByScoreDesc xs) := rfl
    rw [hstep, filter_insertByScoreDesc, List.filter_cons]
    by_cases hx : x.score = s
    · rw [if_pos hx, ih]
      simp [hx]
    · rw [if_neg hx, ih]
      simp [hx]

/-- C8.  generate_progression_options returns the first five entries of
the stably sorted scored list: at most five results, pairwise descending
by score, and the stable sort leaves every class of equal-score entries
in their original enumeration order. -/
theorem c8_top5_ranking (key_obj : KeyObj) (keyName : String)
    (scale_degrees : List (Option Int)) :
    generate_progression_options key_obj keyName scale_degrees
      = (pySortByScoreDesc (scoredProgressionList key_obj keyName scale_degrees)).take 5
    ∧ (generate_progression_options key_obj keyName scale_degrees).length ≤ 5
    ∧ (generate_progression_options key_obj keyName scale_degrees).Pairwise
        (fun a b => b.score ≤ a.score)
    ∧ ∀ s : Int,
        (pySortByScoreDesc (scoredProgressionList key_obj keyName scale_degrees)).filter
            (fun x => x.score = s)
          = (scoredProgressionList key_obj keyName scale_degrees).filter
              (fun x => x.score = s) := by
  refine ⟨rfl, ?_, ?_, ?_⟩
  · simp only [generate_progression_options, List.length_take]
    exact min_le_left _ _
  · exact List.Pairwise.sublist (List.take_sublist _ _) (pairwise_pySortByScoreDesc _)
  · intro s
    exact filter_pySortByScoreDesc s _

/-- A candidate voicing for one doubling places the fixed bass in the
bass and draws every upper voice name from the permuted triple. -/
theorem mem_fixedBassCandidates {fb : Pitch} {a b c : NoteName} {v : Voicing}
    (hv : v ∈ fixedBassCandidates fb [a, b, c]) :
    v.bass = fb ∧ v.tenor.name ∈ [a, b, c] ∧ v.alto.name ∈ [a, b, c]
      ∧ v.soprano.name ∈ [a, b, c] := by
  rcases List.mem_flatMap.mp hv with ⟨⟨sopN, altoN, tenN⟩, hperm, hv2⟩
  rcases List.mem_flatMap.mp hv2 with ⟨so, _, hv3⟩
  rcases List.mem_flatMap.mp hv3 with ⟨ao, _, hv4⟩
  rcases List.mem_filterMap.mp hv4 with ⟨teno, _, heq⟩
  have hnames : sopN ∈ [a, b, c] ∧ altoN ∈ [a, b, c] ∧ tenN ∈ [a, b, c] := by
    simp only [perms3, List.mem_cons, List.not_mem_nil, or_false, Prod.mk.injEq] at hperm
    obtain h6 | h6 | h6 | h6 | h6 | h6 := hperm <;>
      obtain ⟨rfl, rfl, rfl⟩ := h6 <;> simp
  dsimp only at heq
  split_ifs at heq
  cases heq
  exact ⟨rfl, hnames.2.2, hnames.2.1, hnames.1⟩

/-- Every voicing produced by the doubling loop that is not already in
the accumulator comes from the candidates of some doubling choice. -/
theorem mem_fixedBassLoop {fb : Pitch} {c : RomanChord} {v : Voicing} :
    ∀ {ds : List NoteName} {acc : List Voicing},
    v ∈ fixedBassLoop fb c ds acc →
    v ∈ acc ∨ ∃ d ∈ ds, v ∈ fixedBassCandidates fb [c.third, c.fifth, d]
  | [], acc, h => Or.inl h
  | d :: rest, acc, h => by
    simp only [fixedBassLoop] at h
    split_ifs at h with hlen
    · rcases List.mem_append.mp h with h' | h'
      · exact Or.inl h'
      · exact Or.inr ⟨d, List.mem_cons_self d rest, h'⟩
    · rcases mem_fixedBassLoop h with h' | ⟨d', hd', hv'⟩
      · rcases List.mem_append.mp h' with h'' | h''
        · exact Or.inl h''
        · exact Or.inr ⟨d, List.mem_cons_self d rest, h''⟩
      · exact Or.inr ⟨d', List.mem_cons_of_mem d hd', hv'⟩

/-- The doubling priority only ever contains the root, fifth or third. -/
theorem mem_doublingPriority {lt : NoteName} {c : RomanChord} {d : NoteName}
    (hd : d ∈ doublingPriority lt c) :
    d = c.root ∨ d = c.fifth ∨ d = c.third := by
  unfold doublingPriority at hd
  split_ifs at hd <;> simp_all <;> tauto

/-- C1, amended.  For every chord containing a seventh (indeed for every
chord), each voicing returned by voiceChordWithFixedBass consists of the
fixed bass plus three upper voices whose names are drawn entirely from
the chord's root, third and fifth: a complete triad with one tone
doubled.  The chordal seventh is never placed in an upper voice, so the
four distinct chord tones of the claim never appear. -/
theorem c1_seventh_voicing_amended (key_obj : KeyObj)
    (chord_symbol : RomanChord) (fixed_bass : Pitch)
    (hs : chord_symbol.seventh.isSome = true)
    (v : Voicing) (hv : v ∈ voiceChordWithFixedBass key_obj chord_symbol fixed_bass)
    (p : Pitch) (hp : p ∈ [v.tenor, v.alto, v.soprano]) :
    p.name ∈ [chord_symbol.root, chord_symbol.third, chord_symbol.fifth] := by
  have _ := hs
  simp only [voiceChordWithFixedBass] at hv
  have hv2 := List.take_subset _ _ hv
  by_cases hL : fixedBassLoop fixed_bass chord_symbol
      (doublingPriority key_obj.leadingTone chord_symbol) [] = []
  · rw [if_pos hL] at hv2
    simp only [List.mem_singleton] at hv2
    subst hv2
    simp only [List.mem_cons, List.not_mem_nil, or_false] at hp
    by_cases hswap : (⟨chord_symbol.third, 4⟩ : Pitch).midi
        < (⟨chord_symbol.fifth, 4⟩ : Pitch).midi
    · simp only [if_pos hswap] at hp
      rcases hp with rfl | rfl | rfl <;> simp
    · simp only [if_neg hswap] at hp
      rcases hp with rfl | rfl | rfl <;> simp
  · rw [if_neg hL] at hv2
    rcases mem_fixedBassLoop hv2 with h' | ⟨d, hd, hvc⟩
    · cases h'
    · obtain ⟨_, hten, halt, hsop⟩ := mem_fixedBassCandidates hvc
      have hd3 := mem_doublingPriority hd
      have hp3 : p.name ∈ [chord_symbol.third, chord_symbol.fifth, d] := by
        simp only [List.mem_cons, List.not_mem_nil, or_false] at hp
        rcases hp with rfl | rfl | rfl
        · exact hten
        · exact halt
        · exact hsop
      simp only [List.mem_cons, List.not_mem_nil, or_false] at hp3 ⊢
      rcases hp3 with h3 | h3 | h3
      · exact Or.inr (Or.inl h3)
      · exact Or.inr (Or.inr h3)
      · rcases hd3 with rfl | rfl | rfl
        · exact Or.inl h3
        · exact Or.inr (Or.inr h3)
        · exact Or.inr (Or.inl h3)

/-- C1, counterexample.  For the dominant seventh of C major voiced over
bass G3, the generator's first voicing G3 D4 G4 B4 is produced, has only
three distinct pitch classes (the root G is doubled), and omits the
seventh F entirely — contradicting the claim that every voicing consists
of the four distinct chord tones including the seventh. -/
theorem c1_seventh_voicing_counterexample :
    v7Chord.seventh = some ⟨.F, 0⟩
    ∧ v7FirstVoicing ∈ voiceChordWithFixedBass cMajorKey v7Chord ⟨⟨.G, 0⟩, 3⟩
    ∧ (v7FirstVoicing.pitches.map Pitch.pitchClass).dedup.length ≠ 4
    ∧ (⟨.F, 0⟩ : NoteName).pc ∉ v7FirstVoicing.pitches.map Pitch.pitchClass := by
  refine ⟨rfl, by decide, by decide, by decide⟩

/-- C1, witness for the amended theorem: the tenor of the first V7
voicing is one of root, third, fifth. -/
theorem c1_seventh_voicing_witness :
    (⟨⟨.D, 0⟩, 4⟩ : Pitch).name ∈ [v7Chord.root, v7Chord.third, v7Chord.fifth] :=
  c1_seventh_voicing_amended cMajorKey v7Chord ⟨⟨.G, 0⟩, 3⟩ (by decide)
    v7FirstVoicing (by decide) ⟨⟨.D, 0⟩, 4⟩ (by decide)

/-- A dict update never empties the table. -/
theorem dictInsert_ne_nil (st : Stage) (k : Voicing) (v : Cost × Option Voicing) :
    dictInsert st k v ≠ [] := by
  unfold dictInsert
  split_ifs with h
  · intro hmap
    rcases st with _ | ⟨e, es⟩
    · simp at h
    · simp at hmap
  · simp

/-- Folding dict updates over the voicings leaves a non-empty table as
soon as the start table or the voicing list is non-empty. -/
theorem foldl_dictInsert_ne_nil (g : Voicing → Cost × Option Voicing) :
    ∀ (l : List Voicing) (init : Stage), init ≠ [] ∨ l ≠ [] →
    l.foldl (fun st v => dictInsert st v (g v)) init ≠ []
  | [], init, h => by
    rcases h with h | h
    · exact h
    · exact absurd rfl h
  | v :: rest, init, _ => by
    simp only [List.foldl_cons]
    exact foldl_dictInsert_ne_nil g rest _ (Or.inl (dictInsert_ne_nil _ _ _))

/-- The fixed-bass generator never returns an empty list: the fallback
voicing covers an empty search. -/
theorem voiceChordWithFixedBass_ne_nil (key_obj : KeyObj) (c : RomanChord)
    (fb : Pitch) : voiceChordWithFixedBass key_obj c fb ≠ [] := by
  simp only [voiceChordWithFixedBass]
  intro h
  rw [List.take_eq_nil_iff] at h
  rcases h with h | h
  · exact absurd h (by norm_num)
  · split_ifs at h with hL
    exact hL h

/-- The fixed-bass generator returns at most ten voicings. -/
theorem voiceChordWithFixedBass_length_le (key_obj : KeyObj) (c : RomanChord)
    (fb : Pitch) : (voiceChordWithFixedBass key_obj c fb).length ≤ 10 := by
  simp only [voiceChordWithFixedBass, List.length_take]
  exact min_le_left _ _

/-- Every DP stage the stage-building loop emits is non-empty. -/
theorem dpStagesAux_stages_ne_nil (key_obj : KeyObj) (facts : Voicing → ChordFacts)
    (expand : String → RomanChord) :
    ∀ (prevOpt : Option Stage) (items : List (String × Pitch)) (st : Stage),
    st ∈ dpStagesAux key_obj facts expand prevOpt items → st ≠ []
  | prevOpt, [], st, h => by cases h
  | prevOpt, (numeral, fb) :: rest, st, h => by
    simp only [dpStagesAux, List.mem_cons] at h
    rcases h with rfl | h
    · rcases prevOpt with _ | prev
      · exact foldl_dictInsert_ne_nil
          (fun v => (Cost.fin (chordCost key_obj facts v), none)) _ []
          (Or.inr (voiceChordWithFixedBass_ne_nil key_obj (expand numeral) fb))
      · exact foldl_dictInsert_ne_nil
          (fun v =>
            ((prev.foldl
                (fun (b : Cost × Option Voicing) e =>
                  let ccost := e.2.1.add (progressionCost key_obj facts e.1 v)
                  if ccost.lt b.1 then (ccost, some e.1) else b)
                (Cost.inf, none)).1.add (chordCost key_obj facts v),
             (prev.foldl
                (fun (b : Cost × Option Voicing) e =>
                  let ccost := e.2.1.add (progressionCost key_obj facts e.1 v)
                  if ccost.lt b.1 then (ccost, some e.1) else b)
                (Cost.inf, none)).2)) _ []
          (Or.inr (voiceChordWithFixedBass_ne_nil key_obj (expand numeral) fb))
    · exact dpStagesAux_stages_ne_nil key_obj facts expand _ rest st h

/-- The running minimum over a non-empty table is some entry. -/
theorem argminStage_ne_none (st : Stage) (h : st ≠ []) : argminStage st ≠ none := by
  have step : ∀ (l : Stage) (b : Option (Voicing × (Cost × Option Voicing))), b ≠ none →
      l.foldl
        (fun b e =>
          match b with
          | none => some e
          | some be => if e.2.1.lt be.2.1 then some e else some be)
        b ≠ none := by
    intro l
    induction l with
    | nil => intro b hb; exact hb
    | cons e es ih =>
      intro b hb
      simp only [List.foldl_cons]
      rcases b with _ | be
      · exact ih (some e) (by simp)
      · by_cases hlt : (e.2.1.lt be.2.1 : Bool)
        · simp only [hlt, if_pos]
          exact ih _ (by simp)
        · refine ih _ ?_
          simp [hlt]
  rcases st with _ | ⟨e, es⟩
  · exact absurd rfl h
  · simp only [argminStage, List.foldl_cons]
    exact step es (some e) (by simp)

/-- The default last element of a non-empty list is a member. -/
theorem getLastD_mem_of_ne_nil {α : Type} :
    ∀ (l : List α) (d : α), l ≠ [] → l.getLastD d ∈ l
  | [], _, h => absurd rfl h
  | [a], d, _ => by simp
  | a :: b :: t, d, _ => by
    rw [List.getLastD_cons]
    exact List.mem_cons_of_mem a (getLastD_mem_of_ne_nil (b :: t) a (by simp))

/-- The stage loop emits one table per progression step. -/
theorem dpStagesAux_length (key_obj : KeyObj) (facts : Voicing → ChordFacts)
    (expand : String → RomanChord) :
    ∀ (prevOpt : Option Stage) (items : List (String × Pitch)),
    (dpStagesAux key_obj facts expand prevOpt items).length = items.length
  | _, [] => rfl
  | prevOpt, (numeral, fb) :: rest => by
    simp only [dpStagesAux, List.length_cons]
    rw [dpStagesAux_length key_obj facts expand _ rest]

/-- Backtracking visits each stage exactly once. -/
theorem backtrackAux_length :
    ∀ (stages : List Stage) (cur : Voicing),
    (backtrackAux stages cur).length = stages.length
  | [], _ => rfl
  | stage :: earlier, cur => by
    simp only [backtrackAux, List.length_cons]
    rw [backtrackAux_length earlier]

/-- C10.  The fixed-bass generator always returns between one and ten
voicings, so for a non-empty progression every DP table built by
voiceProgressionWithFixedBass is non-empty and the guard that would
select the generate_simple_fallback_chords branch (an empty final table)
can never fire. -/
theorem c10_generator_dp_nonempty (key_obj : KeyObj)
    (facts : Voicing → ChordFacts) (expand : String → RomanChord) :
    (∀ (c : RomanChord) (fb : Pitch),
        1 ≤ (voiceChordWithFixedBass key_obj c fb).length
        ∧ (voiceChordWithFixedBass key_obj c fb).length ≤ 10)
    ∧ ∀ (chord_progression : List String) (bass_notes : List Pitch),
        chord_progression ≠ [] → chord_progression.length = bass_notes.length →
        (∀ st ∈ dpStages key_obj facts expand chord_progression bass_notes, st ≠ [])
        ∧ argminStage
            ((dpStages key_obj facts expand chord_progression bass_notes).getLastD [])
            ≠ none := by
  constructor
  · intro c fb
    refine ⟨?_, voiceChordWithFixedBass_length_le key_obj c fb⟩
    have := List.length_pos.mpr (voiceChordWithFixedBass_ne_nil key_obj c fb)
    omega
  · intro cp bass hcp hlen
    have hitems : (cp.zip bass) ≠ [] := by
      have : (cp.zip bass).length = cp.length := by
        rw [List.length_zip, ← hlen, min_self]
      have hpos : 0 < (cp.zip bass).length := by
        rw [this]
        exact List.length_pos.mpr hcp
      exact List.length_pos.mp hpos
    have hstages : ∀ st ∈ dpStages key_obj facts expand cp bass, st ≠ [] :=
      fun st hst => dpStagesAux_stages_ne_nil key_obj facts expand none _ st hst
    refine ⟨hstages, ?_⟩
    have hdp : dpStages key_obj facts expand cp bass ≠ [] := by
      intro hnil
      have hlen2 := dpStagesAux_length key_obj facts expand none (cp.zip bass)
      rw [show dpStagesAux key_obj facts expand none (cp.zip bass)
            = dpStages key_obj facts expand cp bass from rfl, hnil] at hlen2
      exact hitems (List.length_eq_zero.mp hlen2.symm)
    exact argminStage_ne_none _
      (hstages _ (getLastD_mem_of_ne_nil _ _ hdp))

/-- C10, witness: at a concrete one-chord progression the final DP table
has a minimum, so the fallback branch is not taken. -/
theorem c10_generator_dp_witness :
    argminStage
        ((dpStages cMajorKey simpleFacts expandCI ["I"] [⟨⟨.C, 0⟩, 3⟩]).getLastD [])
      ≠ none :=
  ((c10_generator_dp_nonempty cMajorKey simpleFacts expandCI).2 ["I"]
    [⟨⟨.C, 0⟩, 3⟩] (by decide) (by decide)).2

/-- Pointwise description of zip through optional indexing. -/
theorem getElem?_zip {α β : Type} :
    ∀ (l : List α) (m : List β) (i : Nat),
    (l.zip m)[i]? = (l[i]?).bind (fun a => (m[i]?).map (fun b => (a, b)))
  | [], _, _ => by simp
  | _ :: _, [], i => by simp
  | a :: l, b :: m, 0 => by simp
  | a :: l, b :: m, (i + 1) => by
    rw [List.zip_cons_cons, List.getElem?_cons_succ, List.getElem?_cons_succ,
      List.getElem?_cons_succ]
    exact getElem?_zip l m i

/-- With a bass line at least as long as the non-empty progression, the
fixed-bass DP takes its backtracking branch and returns one chord per
progression step. -/
theorem voiceProgression_chords_length (key_obj : KeyObj)
    (facts : Voicing → ChordFacts) (expand : String → RomanChord)
    (chord_progression : List String) (bass_notes : List Pitch)
    (hne : chord_progression ≠ [])
    (hlen : chord_progression.length ≤ bass_notes.length) :
    (voiceProgressionWithFixedBass key_obj facts expand chord_progression
        bass_notes).1.length = chord_progression.length := by
  have hitems : chord_progression.zip bass_notes ≠ [] := by
    have hpos : 0 < (chord_progression.zip bass_notes).length := by
      rw [List.length_zip]
      have := List.length_pos.mpr hne
      omega
    exact List.length_pos.mp hpos
  have hdp : dpStages key_obj facts expand chord_progression bass_notes ≠ [] := by
    intro hnil
    have hlen2 := dpStagesAux_length key_obj facts expand none
      (chord_progression.zip bass_notes)
    rw [show dpStagesAux key_obj facts expand none (chord_progression.zip bass_notes)
          = dpStages key_obj facts expand chord_progression bass_notes from rfl,
      hnil] at hlen2
    exact hitems (List.length_eq_zero.mp hlen2.symm)
  have hlast : (dpStages key_obj facts expand chord_progression
      bass_notes).getLastD [] ≠ [] :=
    dpStagesAux_stages_ne_nil key_obj facts expand none _ _
      (getLastD_mem_of_ne_nil _ _ hdp)
  simp only [voiceProgressionWithFixedBass]
  rcases hmin : argminStage
      ((dpStages key_obj facts expand chord_progression bass_notes).getLastD [])
    with _ | cur
  · exact absurd hmin (argminStage_ne_none _ hlast)
  · simp only [List.length_reverse, List.length_map, backtrackAux_length,
      dpStages, dpStagesAux_length, List.length_zip]
    omega

/-- C3, counterexample.  A two-chord progression over a one-note bass
line makes the harmonization body raise (bass_notes[1] is out of range);
the except branch answers with the constant fallback, so the first
chord's bass is C3 although the input bass was D3 — and the handler still
returns this as a 200 success. -/
theorem c3_bass_preservation_counterexample :
    (((generate_satb_harmonization cMajorKey simpleFacts expandSomeCI ["I", "I"]
        [⟨⟨.D, 0⟩, some 3⟩]).1)[0]?).map SATBVoice.bass = some ⟨⟨.C, 0⟩, 3⟩
    ∧ (([⟨⟨.D, 0⟩, some 3⟩] : List BassInput)[0]?).map defaultedBass
        = some ⟨⟨.D, 0⟩, 3⟩
    ∧ (((generate_satb_harmonization cMajorKey simpleFacts expandSomeCI ["I", "I"]
        [⟨⟨.D, 0⟩, some 3⟩]).1)[0]?).map SATBVoice.bass
        ≠ (([⟨⟨.D, 0⟩, some 3⟩] : List BassInput)[0]?).map defaultedBass := by
  refine ⟨by decide, by decide, by decide⟩

/-- C3, amended.  When the harmonization body does not raise — every
numeral parses and the bass line is at least as long as the progression —
each chord's bass is the parsed input bass note after octave defaulting;
when the body raises, the except branch returns the constant fallback
whose every bass is C3, still as a successful response. -/
theorem c3_bass_preservation_amended (key_obj : KeyObj)
    (facts : Voicing → ChordFacts) (expand : String → Option RomanChord)
    (chord_progression : List String) (bass_notes : List BassInput) :
    (satbBodyRaises expand chord_progression bass_notes = false →
      ∀ i : Nat, i < chord_progression.length →
        (((generate_satb_harmonization key_obj facts expand chord_progression
            bass_notes).1)[i]?).map SATBVoice.bass
          = (bass_notes[i]?).map defaultedBass)
    ∧ (satbBodyRaises expand chord_progression bass_notes = true →
      ∀ i : Nat, i < chord_progression.length →
        (((generate_satb_harmonization key_obj facts expand chord_progression
            bass_notes).1)[i]?).map SATBVoice.bass
          = some ⟨⟨.C, 0⟩, 3⟩) := by
  constructor
  · intro hguard i hi
    have hblen : chord_progression.length ≤ bass_notes.length := by
      simp only [satbBodyRaises, Bool.or_eq_false_iff, decide_eq_false_iff_not,
        not_lt] at hguard
      exact hguard.2
    have hne : chord_progression ≠ [] := by
      intro hnil
      rw [hnil] at hi
      simp at hi
    simp only [generate_satb_harmonization, hguard, Bool.false_eq_true, if_false]
    rw [List.getElem?_map, getElem?_zip, getElem?_zip, Option.map_map]
    have hclen := voiceProgression_chords_length key_obj facts
      (fun numeral => (expand numeral).getD ⟨⟨.C, 0⟩, ⟨.E, 0⟩, ⟨.G, 0⟩, none⟩)
      chord_progression (bass_notes.map defaultedBass) hne (by simpa using hblen)
    obtain ⟨ch, hch⟩ : ∃ x, (voiceProgressionWithFixedBass key_obj facts
        (fun numeral => (expand numeral).getD ⟨⟨.C, 0⟩, ⟨.E, 0⟩, ⟨.G, 0⟩, none⟩)
        chord_progression (bass_notes.map defaultedBass)).1[i]? = some x :=
      ⟨_, List.getElem?_eq_getElem (by omega)⟩
    obtain ⟨bn, hbn⟩ : ∃ x, bass_notes[i]? = some x :=
      ⟨_, List.getElem?_eq_getElem (by omega)⟩
    obtain ⟨nu, hnu⟩ : ∃ x, chord_progression[i]? = some x :=
      ⟨_, List.getElem?_eq_getElem (by omega)⟩
    rw [hch, hbn, hnu, List.getElem?_map, hbn]
    rfl
  · intro hguard i hi
    simp only [generate_satb_harmonization, hguard, if_true]
    rw [generate_fallback_satb, List.getElem?_replicate]
    simp [hi]

/-- C3, witness: a non-raising one-chord progression over a bass note
given without an octave; the harmonization's bass is that note at the
default octave 3. -/
theorem c3_bass_preservation_witness :
    (((generate_satb_harmonization cMajorKey simpleFacts expandSomeCI ["I"]
        [⟨⟨.C, 0⟩, none⟩]).1)[0]?).map SATBVoice.bass
      = (([⟨⟨.C, 0⟩, none⟩] : List BassInput)[0]?).map defaultedBass :=
  (c3_bass_preservation_amended cMajorKey simpleFacts expandSomeCI ["I"]
    [⟨⟨.C, 0⟩, none⟩]).1 (by decide) 0 (by decide)
